import Mathlib

/-!
Verification of the HowToCook recipe-extraction scripts.

This file is a shallow embedding, in Lean 4, of the Python sources of the
repository (src/project/parse_dishes.py, src/project/uuid_create.py,
src/project/image_handler.py, src/project/main.py and the older
src/parse_dishes.py).  Python strings are modelled as `List Char`, Python
floats as `ℚ` (the numeric literals appearing in the corpus are short
decimals, on which Python float arithmetic agrees with exact rational
arithmetic), Python `None`-able values as `Option`, and Python exceptions as
`Except PyError`.  The regular-expression searches of the source are embedded
as deterministic character-list scanners; each scanner is written to agree
with CPython `re` semantics (leftmost match, ordered alternation, greedy
quantifiers, with the amount of backtracking that the concrete patterns of
the source can actually exercise).
-/

set_option maxRecDepth 2048

namespace HowToCook

/-- Python exceptions that the embedded code can raise. -/
inductive PyError where
  | nameError (name : String)
  | valueError (msg : String)
  deriving Repr, DecidableEq

/-- Decidable equality for `Except` results (used to evaluate the embedded
functions on concrete inputs inside proofs). -/
instance {ε α : Type} [DecidableEq ε] [DecidableEq α] : DecidableEq (Except ε α)
  | .ok a, .ok b =>
    if h : a = b then .isTrue (by rw [h])
    else .isFalse (fun hh => h (Except.ok.inj hh))
  | .error a, .error b =>
    if h : a = b then .isTrue (by rw [h])
    else .isFalse (fun hh => h (Except.error.inj hh))
  | .ok _, .error _ => .isFalse (fun hh => Except.noConfusion hh)
  | .error _, .ok _ => .isFalse (fun hh => Except.noConfusion hh)

/-! ## Character classes (`\d`, `\s` of the source patterns) -/

/-- `\d` for the ASCII digits appearing in the corpus. -/
def isDigitC (c : Char) : Bool := c.isDigit

/-- `\s` (ASCII whitespace, which is what the corpus contains). -/
def isSpaceC (c : Char) : Bool :=
  c = ' ' || c = '\t' || c = '\n' || c = '\r' || c = '\x0b' || c = '\x0c'

/-- `str.strip()`: remove leading and trailing whitespace. -/
def pyStrip (l : List Char) : List Char :=
  ((l.dropWhile isSpaceC).reverse.dropWhile isSpaceC).reverse

/-- `str.strip()` on `String`s (used to phrase theorem statements). -/
def pyStripStr (s : String) : String := String.mk (pyStrip s.toList)

/-- `text.replace('：', '').replace(':', '')` from `parse_ingredient_text`. -/
def removeColons (l : List Char) : List Char :=
  l.filter (fun c => !(c = '：' || c = ':'))

/-- Numeric value of a digit list (most significant first). -/
def digitsToNat (ds : List Char) : ℕ :=
  ds.foldl (fun n c => 10 * n + (c.toNat - '0'.toNat)) 0

/-- `float(s)` for a string matched by `\d+(?:\.\d+)?`: exact rational value. -/
def ratOfNum (l : List Char) : ℚ :=
  let ds := l.takeWhile isDigitC
  let rest := l.dropWhile isDigitC
  match rest with
  | '.' :: fs => (digitsToNat ds : ℚ) + (digitsToNat fs : ℚ) / (10 : ℚ) ^ fs.length
  | _ => (digitsToNat ds : ℚ)

/-- `float(s)` for an arbitrary matched group: `some` exactly when the group
consists of digits with an optional single fractional part (the only strings
the source's patterns can produce that `float` accepts); `none` models the
`ValueError` that `float` raises e.g. on a multi-character Chinese numeral
such as `"十五"`. -/
def floatOfChars (l : List Char) : Option ℚ :=
  let ds := l.takeWhile isDigitC
  let rest := l.dropWhile isDigitC
  if ds = [] then none
  else
    match rest with
    | [] => some (ratOfNum l)
    | '.' :: fs => if fs ≠ [] ∧ fs.all isDigitC then some (ratOfNum l) else none
    | _ => none

/-- `int(x)` on a float: truncation towards zero, which on an exact rational
is `Int.div` of numerator by denominator (`Int.div` truncates towards
zero). -/
def pyInt (q : ℚ) : ℤ := Int.div q.num (q.den : ℤ)

/-- Match `\d+(?:\.\d+)?` at the head of the input: returns the matched
characters and the rest.  Greedy on the digit run and on the fractional part;
against the continuations appearing in the source's patterns (none of which
can begin with a digit or a dot) no backtracking into this sub-pattern is
possible, so the greedy parse is exact. -/
def parseNum (l : List Char) : Option (List Char × List Char) :=
  let ds := l.takeWhile isDigitC
  let rest := l.dropWhile isDigitC
  if ds = [] then none
  else
    match rest with
    | d :: r2 =>
      if d = '.' ∧ r2.takeWhile isDigitC ≠ [] then
        some (ds ++ '.' :: r2.takeWhile isDigitC, r2.dropWhile isDigitC)
      else some (ds, rest)
    | [] => some (ds, rest)

/-- Ordered alternation of string literals (`(a|b|...)`): the first
alternative that is a prefix of the input matches. -/
def matchAlt (alts : List String) (l : List Char) : Option (String × List Char) :=
  match alts with
  | [] => none
  | a :: rest =>
    if a.toList.isPrefixOf l then some (a, l.drop a.toList.length)
    else matchAlt rest l

/-! ## `parse_ingredient_text` (src/project/parse_dishes.py lines 11–57) -/

/-- The closed unit set of `parse_ingredient_text` (line 17), in source order. -/
def units : List String :=
  ["克", "g", "kg", "毫升", "ml", "升", "l", "个", "只", "块", "片", "根", "条",
   "把", "朵", "粒", "颗", "瓣", "滴", "勺", "杯", "碗", "包", "袋", "瓶", "罐",
   "盒", "斤", "两"]

/-- Attempt the range pattern `(\d+(?:\.\d+)?)\s*-\s*(\d+(?:\.\d+)?)\s*(units)`
at the head of the input.  Returns (group 1, group 2, unit, rest after the
match). -/
def tryRangeAt (l : List Char) : Option (List Char × List Char × String × List Char) := do
  let (n1, r1) ← parseNum l
  match r1.dropWhile isSpaceC with
  | c :: r2 =>
    if c = '-' then do
      let r3 := r2.dropWhile isSpaceC
      let (n2, r4) ← parseNum r3
      let (u, r5) ← matchAlt units (r4.dropWhile isSpaceC)
      some (n1, n2, u, r5)
    else none
  | [] => none

/-- `re.search` of the (unanchored) range pattern: leftmost match.  Returns
(prefix before the match, group 1, group 2, unit, rest after the match). -/
def searchRange : List Char → Option (List Char × List Char × List Char × String × List Char)
  | [] => none
  | c :: rest =>
    match tryRangeAt (c :: rest) with
    | some (n1, n2, u, r) => some ([], n1, n2, u, r)
    | none => (searchRange rest).map fun (p, n1, n2, u, r) => (c :: p, n1, n2, u, r)

/-- `re.sub(range_pattern, '', text)`: remove every (non-overlapping,
leftmost-first) match of the range pattern.  Implemented with a fuel
argument; every match of the range pattern consumes at least one character,
so fuel `l.length` is always sufficient. -/
def rangeSubGo : ℕ → List Char → List Char
  | 0, l => l
  | fuel + 1, l =>
    match searchRange l with
    | none => l
    | some (p, _, _, _, r) => p ++ rangeSubGo fuel r

/-- `re.sub(range_pattern, '', text)`. -/
def rangeSubAll (l : List Char) : List Char := rangeSubGo l.length l

/-- Attempt `(\d+(?:\.\d+)?)\s*(units)` at the head of the input. -/
def tryNumUnitAt (l : List Char) : Option (List Char × String × List Char) := do
  let (num, r1) ← parseNum l
  let (u, r2) ← matchAlt units (r1.dropWhile isSpaceC)
  some (num, u, r2)

/-- `re.search(r'^(.*?)(\d+(?:\.\d+)?)\s*(units)', text)`: the lazy `(.*?)`
prefix (which cannot cross a newline, `.` not matching `\n`) scans left to
right for the first position where number-then-unit matchs.  Returns
(group 1, number, unit). -/
def searchNumUnit : List Char → Option (List Char × List Char × String)
  | [] => none
  | c :: rest =>
    match tryNumUnitAt (c :: rest) with
    | some (num, u, _) => some ([], num, u)
    | none =>
      if c = '\n' then none
      else (searchNumUnit rest).map fun (p, num, u) => (c :: p, num, u)

/-- `$` of a non-MULTILINE Python pattern: end of string or just before a
final newline. -/
def atDollar : List Char → Bool
  | [] => true
  | ['\n'] => true
  | _ => false

/-- `re.search(r'^(.*?)(\d+(?:\.\d+)?)$', text)`: like `searchNumUnit` but the
number must end the string (or stop just before a final newline). -/
def searchNumEnd : List Char → Option (List Char × List Char)
  | [] => none
  | c :: rest =>
    match parseNum (c :: rest) with
    | some (num, r) =>
      if atDollar r then some ([], num)
      else if c = '\n' then none
      else (searchNumEnd rest).map fun (p, num') => (c :: p, num')
    | none =>
      if c = '\n' then none
      else (searchNumEnd rest).map fun (p, num') => (c :: p, num')

/-- `parse_ingredient_text` (src/project/parse_dishes.py lines 11–57):
parse one ingredient line into (name, quantity, unit). -/
def parse_ingredient_text (text : String) : String × Option ℚ × Option String :=
  -- line 20: text = text.strip().replace('：', '').replace(':', '')
  let t := removeColons (pyStrip text.toList)
  -- lines 23–34: range pattern, mean of the two bounds
  match searchRange t with
  | some (_, n1, n2, u, _) =>
    let quantity := (ratOfNum n1 + ratOfNum n2) / 2
    let name := pyStrip (rangeSubAll t)
    (String.mk name, some quantity, some u)
  | none =>
    -- lines 38–45: number+unit pattern
    match searchNumUnit t with
    | some (pre, num, u) => (String.mk (pyStrip pre), some (ratOfNum num), some u)
    | none =>
      -- lines 48–54: bare-number pattern
      match searchNumEnd t with
      | some (pre, num) => (String.mk (pyStrip pre), some (ratOfNum num), none)
      | none =>
        -- line 57: no pattern matched
        (String.mk t, none, none)

/-! ## `_extract_times` (src/project/parse_dishes.py lines 80–219) -/

/-- The single-character Chinese numerals of the `chinese_numerals` dict
(lines 90–94), as characters (used for the `[一二三四五六七八九十半]` class). -/
def cnChars : List Char :=
  ['一', '二', '三', '四', '五', '六', '七', '八', '九', '十', '半']

/-- Membership in the Chinese-numeral character class. -/
def isCN (c : Char) : Bool := cnChars.contains c

/-- The `chinese_numerals` mapping (lines 90–94). -/
def chineseNumerals : List (String × ℚ) :=
  [("一", 1), ("二", 2), ("三", 3), ("四", 4), ("五", 5), ("六", 6), ("七", 7),
   ("八", 8), ("九", 9), ("十", 10), ("半", 1/2)]

/-- `value in chinese_numerals` / `chinese_numerals[value]`. -/
def cnLookup (s : String) : Option ℚ :=
  (chineseNumerals.find? (fun p => p.1 = s)).map (fun p => p.2)

/-- `chinese_to_arabic` (lines 97–118): single numerals via the dict, then the
seven hard-coded compounds (note: `六十` is not among them). -/
def chinese_to_arabic (s : String) : Option ℚ :=
  match cnLookup s with
  | some v => some v
  | none =>
    if s = "二十" then some 20
    else if s = "二十五" then some 25
    else if s = "三十" then some 30
    else if s = "三十五" then some 35
    else if s = "四十" then some 40
    else if s = "四十五" then some 45
    else if s = "五十" then some 50
    else none

/-- `re.findall`: non-overlapping leftmost matches, scanning left to right and
resuming after each match.  Fuel-based; every pattern used in the source
consumes at least one character per match, so fuel `l.length` is sufficient. -/
def findallGo {α : Type} (tryAt : List Char → Option (α × List Char)) :
    ℕ → List Char → List α
  | 0, _ => []
  | _ + 1, [] => []
  | fuel + 1, c :: rest =>
    match tryAt (c :: rest) with
    | some (g, r) => g :: findallGo tryAt fuel r
    | none => findallGo tryAt fuel rest

/-- `re.findall` of a pattern embedded as a head-matcher `tryAt`. -/
def findall {α : Type} (tryAt : List Char → Option (α × List Char))
    (l : List Char) : List α :=
  findallGo tryAt l.length l

/-- The three time-unit alternatives `(分钟|小时|天)`, in source order. -/
def timeUnits : List String := ["分钟", "小时", "天"]

/-- The three labels of the labelled time pattern (line 121), in source order. -/
def timeLabels : List String := ["预估准备时间", "预估烹饪时间", "预估总时间"]

/-- `(?:\s*个)?` : optionally consume whitespace followed by `个`. -/
def geOpt (l : List Char) : List Char :=
  match l.dropWhile isSpaceC with
  | '个' :: r => r
  | _ => l

/-- The value alternation `(\d+(?:\.\d+)?|[一二三四五六七八九十半]+)` followed by a
continuation, with the ordered backtracking of a Python alternation: the
digit branch is tried first (greedily; shrinking it can never help since no
continuation in the source can start with a digit or a dot), and on failure
of its continuation the Chinese-numeral branch is tried at the same
position. -/
def tryValueThen {α : Type} (l : List Char)
    (cont : List Char → Option (α × List Char)) :
    Option ((List Char × α) × List Char) :=
  let cnBranch : Option ((List Char × α) × List Char) :=
    let cs := l.takeWhile isCN
    if cs = [] then none
    else (cont (l.dropWhile isCN)).map fun (a, r) => ((cs, a), r)
  match parseNum l with
  | some (num, r1) =>
    match cont r1 with
    | some (a, r2) => some ((num, a), r2)
    | none => cnBranch
  | none => cnBranch

/-- Head match of the labelled time pattern (line 121):
`(预估准备时间|预估烹饪时间|预估总时间)：(\d+(?:\.\d+)?|[CN]+)(?:\s*个)?\s*(分钟|小时|天)`. -/
def tryLabeledAt (l : List Char) :
    Option ((String × String × String) × List Char) := do
  let (label, r1) ← matchAlt timeLabels l
  match r1 with
  | '：' :: r2 =>
    (tryValueThen r2 (fun r => matchAlt timeUnits ((geOpt r).dropWhile isSpaceC))).map
      fun ((v, u), r) => ((label, String.mk v, u), r)
  | _ => none

/-- `.*?(完成|制作)` : scan forward (without crossing a newline, `.` not
matching `\n`) for the first completion verb. -/
def descVerbScan : List Char → Option (String × List Char)
  | [] => none
  | c :: rest =>
    match matchAlt ["完成", "制作"] (c :: rest) with
    | some (v, r) => some (v, r)
    | none => if c = '\n' then none else descVerbScan rest

/-- Head match of the narrative time pattern (line 149):
`(\d+(?:\.\d+)?|[CN]+)\s*(分钟|小时|天).*?(完成|制作)`. -/
def tryDescAt (l : List Char) :
    Option ((String × String × String) × List Char) :=
  (tryValueThen l (fun r => do
    let (u, r2) ← matchAlt timeUnits (r.dropWhile isSpaceC)
    let (v, r3) ← descVerbScan r2
    some ((u, v), r3))).map
    fun ((value, (u, v)), r) => ((String.mk value, u, v), r)

/-- Ordered alternation of literals, each tried together with its
continuation (Python backtracks into the alternation when the continuation
fails, which matters for the compound-numeral patterns: in `二十五分钟` the
alternative `二十` matches but its continuation fails, and `二十五` is then
tried). -/
def matchAltThen {α : Type} (alts : List String) (l : List Char)
    (cont : List Char → Option (α × List Char)) :
    Option ((String × α) × List Char) :=
  match alts with
  | [] => none
  | a :: rest =>
    match (if a.toList.isPrefixOf l then cont (l.drop a.toList.length) else none) with
    | some (x, r) => some ((a, x), r)
    | none => matchAltThen rest l cont

/-- The compound-numeral alternatives of step patterns 5 and 6 (lines
179–180), in source order. -/
def compounds : List String :=
  ["二十", "二十五", "三十", "三十五", "四十", "四十五", "五十", "六十"]

/-- Step pattern 1 (line 175): `([一二三四五六七八九十半]+)\s*(分钟|小时|天)`. -/
def tryStep1At (l : List Char) : Option ((String × String) × List Char) :=
  let cs := l.takeWhile isCN
  if cs = [] then none
  else (matchAlt timeUnits ((l.dropWhile isCN).dropWhile isSpaceC)).map
    fun (u, r) => ((String.mk cs, u), r)

/-- Step pattern 2 (line 176): `(\d+(?:\.\d+)?)\s*(分钟|小时|天)`. -/
def tryStep2At (l : List Char) : Option ((String × String) × List Char) := do
  let (num, r1) ← parseNum l
  let (u, r2) ← matchAlt timeUnits (r1.dropWhile isSpaceC)
  some ((String.mk num, u), r2)

/-- Step pattern 3 (line 177): `([一二三四五六七八九十半]+)个(分钟|小时|天)`. -/
def tryStep3At (l : List Char) : Option ((String × String) × List Char) :=
  let cs := l.takeWhile isCN
  if cs = [] then none
  else
    match l.dropWhile isCN with
    | '个' :: r =>
      (matchAlt timeUnits r).map fun (u, r2) => ((String.mk cs, u), r2)
    | _ => none

/-- Step pattern 4 (line 178): `(\d+(?:\.\d+)?)个(分钟|小时|天)`. -/
def tryStep4At (l : List Char) : Option ((String × String) × List Char) := do
  let (num, r1) ← parseNum l
  match r1 with
  | '个' :: r2 =>
    (matchAlt timeUnits r2).map fun (u, r3) => ((String.mk num, u), r3)
  | _ => none

/-- Step pattern 5 (line 179): `(二十|二十五|三十|三十五|四十|四十五|五十|六十)\s*(分钟|小时|天)`. -/
def tryStep5At (l : List Char) : Option ((String × String) × List Char) :=
  matchAltThen compounds l (fun r => matchAlt timeUnits (r.dropWhile isSpaceC))

/-- Step pattern 6 (line 180): `(二十|二十五|三十|三十五|四十|四十五|五十|六十)个(分钟|小时|天)`. -/
def tryStep6At (l : List Char) : Option ((String × String) × List Char) :=
  matchAltThen compounds l (fun r =>
    match r with
    | '个' :: r2 => matchAlt timeUnits r2
    | _ => none)

/-- The `step_time_patterns` list (lines 174–181), in source order. -/
def stepTimePatterns : List (List Char → Option ((String × String) × List Char)) :=
  [tryStep1At, tryStep2At, tryStep3At, tryStep4At, tryStep5At, tryStep6At]

/-- Lines 183–187: `step_time_matches`, the concatenation of the `findall`
results of all six step patterns (each mention is collected once per pattern
it matches). -/
def stepTimeMatches (content : List Char) : List (String × String) :=
  stepTimePatterns.foldl
    (fun acc p =>
      let ms := findall p content
      if ms = [] then acc else acc ++ ms)
    []

/-- Unit conversion of lines 134–137 (and the identical 161–165, 203–206). -/
def convUnit (u : String) (v : ℚ) : ℚ :=
  if u = "小时" then v * 60 else if u = "天" then v * 1440 else v

/-- The `ValueError` text of CPython's `float()`. -/
def valueErrorFloat (s : String) : PyError :=
  .valueError ("could not convert string to float: " ++ s)

/-- Lines 127–131 (and 155–159): interpret a matched value string, Chinese
single numerals through the dict, anything else through `float` (which raises
on strings such as `"十五"` or `"二十"`). -/
def labeledValue (value : String) : Except PyError ℚ :=
  match cnLookup value with
  | some v => Except.ok v
  | none =>
    match floatOfChars value.toList with
    | some v => Except.ok v
    | none => Except.error (valueErrorFloat value)

/-- Python's `needle in hay` substring test. -/
def containsSub (needle : List Char) : List Char → Bool
  | [] => needle.isPrefixOf []
  | c :: t => needle.isPrefixOf (c :: t) || containsSub needle t

/-- One iteration of the labelled-match loop (lines 124–144).  The label is
dispatched by substring containment (`'准备时间' in time_type` etc.), as in the
source. -/
def applyLabeledMatch (acc : Option ℤ × Option ℤ × Option ℤ)
    (m : String × String × String) :
    Except PyError (Option ℤ × Option ℤ × Option ℤ) := do
  let (label, value, u) := m
  let tv ← labeledValue value
  let tv := convUnit u tv
  let (prep, cook, total) := acc
  if containsSub "准备时间".toList label.toList then
    pure (some (pyInt tv), cook, total)
  else if containsSub "烹饪时间".toList label.toList then
    pure (prep, some (pyInt tv), total)
  else if containsSub "总时间".toList label.toList then
    pure (prep, cook, some (pyInt tv))
  else pure acc

/-- Lines 191–207: minutes contributed by one step-pattern match (may raise
`ValueError` through `float`, e.g. on `"六十"`, which `chinese_to_arabic` does
not handle). -/
def stepValueMinutes (m : String × String) : Except PyError ℚ := do
  let (value, u) := m
  let tv ←
    match cnLookup value with
    | some v => pure v
    | none =>
      match chinese_to_arabic value with
      | some v => pure v
      | none =>
        match floatOfChars value.toList with
        | some v => pure v
        | none => Except.error (valueErrorFloat value)
  pure (convUnit u tv)

/-- `_extract_times` (lines 80–219): extract (prep, cook, total) minutes. -/
def _extract_times (content : List Char) :
    Except PyError (Option ℤ × Option ℤ × Option ℤ) := do
  -- lines 121–144: labelled fields, last match wins per field
  let labeled := findall tryLabeledAt content
  let (prep, cook, total) ← labeled.foldlM applyLabeledMatch (none, none, none)
  -- lines 147–168: narrative fallback when no labelled field was found
  let total ←
    if prep = none ∧ cook = none ∧ total = none then
      match findall tryDescAt content with
      | [] => pure total
      | (value, u, _) :: _ => do
        let tv ← labeledValue value
        pure (some (pyInt (convUnit u tv)))
    else pure total
  -- lines 171–217: step-derived fallback
  if prep = none ∨ cook = none then
    let ms := stepTimeMatches content
    let s ← ms.foldlM (fun acc m => do pure (acc + (← stepValueMinutes m))) (0 : ℚ)
    let total := if s > 0 ∧ total = none then some (pyInt s) else total
    let cook := if (prep = none ∨ cook = none) ∧ s > 0 ∧ cook = none
      then some (pyInt s) else cook
    pure (prep, cook, total)
  else
    pure (prep, cook, total)

/-! ## Section extraction (`_extract_with_unstructured`, lines 243–435) -/

/-- Generic unanchored `re.search`: try the head-matcher at every position,
left to right. -/
def searchFirst {α : Type} (tryAt : List Char → Option α) : List Char → Option α
  | [] => none
  | c :: rest =>
    match tryAt (c :: rest) with
    | some a => some a
    | none => searchFirst tryAt rest

/-- `\s+(.+)$` (with `requireOne = true`) or `\s*(.+)$` (with
`requireOne = false`) under `re.MULTILINE`, where `$` matches before any
newline: maximal whitespace run, then the rest of the line as the (greedy,
non-empty) group.  When the whitespace run swallows the entire remainder the
quantifier backs off just enough for `(.+)` to take the last non-newline
whitespace character.  Returns (group, rest after the group). -/
def wsThenRestOfLine (requireOne : Bool) (l : List Char) : Option (List Char × List Char) :=
  let w := l.takeWhile isSpaceC
  if requireOne ∧ w = [] then none
  else
    match l.dropWhile isSpaceC with
    | c :: r =>
      let g := (c :: r).takeWhile (fun c => c ≠ '\n')
      some (g, (c :: r).drop g.length)
    | [] =>
      -- the whole remainder is whitespace: back off to the last non-newline
      -- whitespace character (if the quantifier may release it)
      let m := (w.reverse.dropWhile (fun c => c = '\n')).length
      if m = 0 then none
      else if requireOne ∧ m = 1 then none
      else
        match w.drop (m - 1) with
        | c :: rest => some ([c], rest)
        | [] => none

/-- `re.MULTILINE` `re.findall`: the head-matcher is attempted only at
line-start positions (start of string or just after a newline);
non-overlapping, resuming after each match.  Fuel-based as `findall`. -/
def findallMLGo {α : Type} (tryAt : List Char → Option (α × List Char)) :
    Bool → ℕ → List Char → List α
  | _, 0, _ => []
  | _, _ + 1, [] => []
  | lineStart, fuel + 1, c :: rest =>
    match (if lineStart then tryAt (c :: rest) else none) with
    | some (g, r) => g :: findallMLGo tryAt false fuel r
    | none => findallMLGo tryAt (c = '\n') fuel rest

/-- `re.findall(pattern, text, re.MULTILINE)` for a `^`-anchored pattern. -/
def findallML {α : Type} (tryAt : List Char → Option (α × List Char))
    (l : List Char) : List α :=
  findallMLGo tryAt true l.length l

/-- Head match of `^\s*###\s+(.+)$` (used at line-start positions). -/
def tryHeading3At (l : List Char) : Option (List Char × List Char) :=
  match l.dropWhile isSpaceC with
  | '#' :: '#' :: '#' :: r2 => wsThenRestOfLine true r2
  | _ => none

/-- Head match of a list-item pattern: `^\s*M\s+(.+)$` (markers `M`,
`requireOne = true`, the ingredient pattern `^\s*-\s+(.+)$`) or
`^\s*M\s*(.+)$` (`requireOne = false`, the step pattern `^\s*[-*]\s*(.+)$`). -/
def tryListItemAt (markers : List Char) (requireOne : Bool) (l : List Char) :
    Option (List Char × List Char) :=
  match l.dropWhile isSpaceC with
  | c :: r2 => if markers.contains c then wsThenRestOfLine requireOne r2 else none
  | [] => none

/-- Head match of the paragraph pattern `^[^-\n].*$` (`re.MULTILINE`): a
non-empty line not starting with `-`. -/
def tryParagraphAt (l : List Char) : Option (List Char × List Char) :=
  match l with
  | c :: _ =>
    if c = '-' ∨ c = '\n' then none
    else
      let g := l.takeWhile (fun c => c ≠ '\n')
      some (g, l.drop g.length)
  | [] => none

/-- The lazy tail `([\s\S]*?)(?=##|$)` of the section patterns: the group
extends minimally until `##` follows or the `$` position (end of string or
before a final newline; these section patterns are not MULTILINE) is
reached.  Fuel-based scan. -/
def lazyUntilSectionEndGo : ℕ → List Char → List Char
  | 0, _ => []
  | fuel + 1, l =>
    if "##".toList.isPrefixOf l then []
    else if atDollar l then []
    else
      match l with
      | [] => []
      | c :: rest => c :: lazyUntilSectionEndGo fuel rest

/-- `([\s\S]*?)(?=##|$)`. -/
def lazyUntilSectionEnd (l : List Char) : List Char :=
  lazyUntilSectionEndGo l.length l

/-- Head match of a section pattern `##\s+(H₁|H₂|…)\s+([\s\S]*?)(?=##|$)`
(lines 297, 313, 330, 389, 411); returns the section body group. -/
def trySectionAt (headers : List String) (l : List Char) : Option (List Char) :=
  match l with
  | '#' :: '#' :: rest =>
    if rest.takeWhile isSpaceC = [] then none
    else
      match matchAlt headers (rest.dropWhile isSpaceC) with
      | none => none
      | some (_, r1) =>
        if r1.takeWhile isSpaceC = [] then none
        else some (lazyUntilSectionEnd (r1.dropWhile isSpaceC))
  | _ => none

/-- The record types of the extracted data (the dict values the source
builds). -/
structure Ingredient where
  name : String
  quantity : Option ℚ
  unit : Option String
  text_quantity : String
  notes : String
  deriving Repr, DecidableEq

/-- One entry of `extracted_data["steps"]`. -/
structure StepEntry where
  step : ℕ
  description : String
  images : List String
  deriving Repr, DecidableEq

/-- One entry of `extracted_data["additional_notes"]` (the `type` key is
`"image"` or `"text"`). -/
structure NoteEntry where
  noteType : String
  content : String
  deriving Repr, DecidableEq

/-- `extracted_data` as initialised and filled by `_extract_with_unstructured`
(the `description` field is initialised to `""` and never assigned again in
that function). -/
structure ExtractedData where
  title : String
  description : String
  difficulty : ℕ
  ingredients : List Ingredient
  steps : List StepEntry
  prep_time : Option ℤ
  cook_time : Option ℤ
  total_time : Option ℤ
  images : List String
  imagesWithPositions : List (String × String)
  additional_notes : List NoteEntry
  deriving Repr

/-- `str.replace(old, '')` (both uses in the source replace by the empty
string): remove all non-overlapping occurrences, left to right.  Fuel-based;
the needles used are non-empty, so fuel `l.length` is sufficient. -/
def replaceAllGo (needle : List Char) : ℕ → List Char → List Char
  | 0, l => l
  | _ + 1, [] => []
  | fuel + 1, c :: rest =>
    if needle.isPrefixOf (c :: rest) then
      replaceAllGo needle fuel ((c :: rest).drop needle.length)
    else c :: replaceAllGo needle fuel rest

/-- `str.replace(old, '')`. -/
def replaceAll (needle : List Char) (l : List Char) : List Char :=
  replaceAllGo needle l.length l

/-- `s.split('/')[-1]` (also `os.path.basename` on posix paths). -/
def lastSlashSegment (s : String) : String :=
  String.mk ((s.toList.reverse.takeWhile (fun c => c ≠ '/')).reverse)

/-- `os.path.dirname` (posix). -/
def pyDirname (s : String) : String :=
  let l := s.toList
  let head := (l.reverse.dropWhile (fun c => c ≠ '/')).reverse
  if head = [] then ""
  else if head.all (fun c => c = '/') then String.mk head
  else String.mk ((head.reverse.dropWhile (fun c => c = '/')).reverse)

/-- `os.path.join a b` (posix, two arguments). -/
def pyJoin (a b : String) : String :=
  if b.startsWith "/" then b
  else if a = "" then b
  else if a.endsWith "/" then a ++ b
  else a ++ "/" ++ b

/-- `.replace('\\', '/')`. -/
def slashify (s : String) : String :=
  String.mk (s.toList.map (fun c => if c = '\\' then '/' else c))

/-- `re.search(r'^#\s+([^\n]+)', content)` (line 265; anchored at the very
start of the document, the pattern is not MULTILINE). -/
def titleMatch (content : List Char) : Option (List Char) :=
  match content with
  | '#' :: rest =>
    -- `[^\n]+` behaves like `(.+)$` with MULTILINE `$` for this purpose:
    -- greedy run of non-newline characters
    (wsThenRestOfLine true rest).map (fun (g, _) => g)
  | _ => none

/-- Title extraction (lines 264–271). -/
def _extract_title (file_path : String) (content : List Char) : String :=
  match titleMatch content with
  | some g => String.mk (pyStrip (replaceAll "的做法".toList g))
  | none => String.mk (replaceAll ".md".toList (lastSlashSegment file_path).toList)

/-- Head match of `预估烹饪难度：([★]+)` (line 274). -/
def tryDifficultyAt (l : List Char) : Option ℕ :=
  if "预估烹饪难度：".toList.isPrefixOf l then
    let stars := (l.drop "预估烹饪难度：".toList.length).takeWhile (fun c => c = '★')
    if stars = [] then none else some stars.length
  else none

/-- Difficulty extraction (lines 273–276). -/
def _extract_difficulty (content : List Char) : ℕ :=
  (searchFirst tryDifficultyAt content).getD 0

/-- Head match of the image pattern `!\[([^\]]*)\]\(([^)]+)\)` (line 285):
returns ((alt, path), rest). -/
def tryImageAt (l : List Char) : Option ((List Char × List Char) × List Char) :=
  match l with
  | '!' :: '[' :: r =>
    let alt := r.takeWhile (fun c => c ≠ ']')
    (match r.drop alt.length with
     | ']' :: '(' :: r2 =>
       let p := r2.takeWhile (fun c => c ≠ ')')
       if p = [] then none
       else
         match r2.drop p.length with
         | ')' :: r3 => some ((alt, p), r3)
         | _ => none
     | _ => none)
  | _ => none

/-- Image extraction (lines 284–294): returns (`extracted_data["images"]`
before deduplication, `images_with_positions` as (path, alt) pairs). -/
def _extract_images (file_path : String) (content : List Char) :
    List String × List (String × String) :=
  (findall tryImageAt content).foldl
    (fun (acc : List String × List (String × String)) m =>
      let (alt, path) := m
      let pathS := String.mk path
      if "http".toList.isPrefixOf path then
        (acc.1 ++ [pathS], acc.2 ++ [(pathS, String.mk alt)])
      else
        let absPath := slashify (pyJoin (pyDirname file_path) pathS)
        (acc.1 ++ [absPath], acc.2 ++ [(absPath, String.mk alt)]))
    ([], [])

/-- Build one ingredient dict from a matched list line (lines 303–310 and
319–326). -/
def mkIngredient (line : List Char) : Ingredient :=
  let r := parse_ingredient_text (String.mk line)
  { name := r.1, quantity := r.2.1, unit := r.2.2,
    text_quantity := String.mk line,
    notes := if r.2.1 = none then "量未指定" else "" }

/-- The list lines of the `必备原料和工具` section (lines 297–301). -/
def ingredientLines (content : List Char) : List (List Char) :=
  match searchFirst (trySectionAt ["必备原料和工具"]) content with
  | some sec => findallML (tryListItemAt ['-'] true) sec
  | none => []

/-- The list lines of the `计算` section (lines 313–317). -/
def calcLines (content : List Char) : List (List Char) :=
  match searchFirst (trySectionAt ["计算"]) content with
  | some sec => findallML (tryListItemAt ['-'] true) sec
  | none => []

/-- Ingredient extraction (lines 296–326): every list line of the main
section, then every list line of the calculation section, each parsed and
appended — no deduplication of any kind is performed. -/
def _extract_ingredients (content : List Char) : List Ingredient :=
  (ingredientLines content ++ calcLines content).map mkIngredient

/-- `steps_text` (lines 330–335): the `操作`/`步骤` section if present, else
the whole document. -/
def stepsText (content : List Char) : List Char :=
  match searchFirst (trySectionAt ["操作", "步骤"]) content with
  | some sec => sec
  | none => content

/-- The step images attached to one step line (lines 346–350 etc.): every
extracted image whose alt text or file name occurs in the step line. -/
def stepImagesFor (stepLine : List Char) (imgs : List (String × String)) :
    List String :=
  imgs.filterMap (fun (m : String × String) =>
    if containsSub m.2.toList stepLine
        || containsSub (lastSlashSegment m.1).toList stepLine then
      some m.1
    else none)

/-- Build the step entries from matched step lines (1-based ordinals). -/
def buildSteps (items : List (List Char)) (imgs : List (String × String)) :
    List StepEntry :=
  items.enum.map (fun (p : ℕ × List Char) =>
    { step := p.1 + 1, description := String.mk (pyStrip p.2),
      images := stepImagesFor p.2 imgs })

/-- The `### `-heading step lines of the steps text (line 338). -/
def stepTitleLines (content : List Char) : List (List Char) :=
  findallML tryHeading3At (stepsText content)

/-- The list-format step lines of the steps text (line 340). -/
def stepListLines (content : List Char) : List (List Char) :=
  findallML (tryListItemAt ['-', '*'] false) (stepsText content)

/-- The `### `-heading lines of the whole document (line 373, the final
fallback). -/
def fullContentTitleLines (content : List Char) : List (List Char) :=
  findallML tryHeading3At content

/-- Step extraction (lines 328–386): heading-format steps first, then
list-format steps, then heading-format steps over the whole document.  No
placeholder of any kind is synthesized when all three are empty. -/
def _extract_steps (content : List Char) (imgs : List (String × String)) :
    List StepEntry :=
  if stepTitleLines content ≠ [] then buildSteps (stepTitleLines content) imgs
  else if stepListLines content ≠ [] then buildSteps (stepListLines content) imgs
  else buildSteps (fullContentTitleLines content) imgs

/-- One notes section (lines 391–408 and 413–430): each non-blank paragraph
line, classified as image when it starts with `![` and contains `](`. -/
def notesFromSection (sec : List Char) : List NoteEntry :=
  (findallML tryParagraphAt sec).filterMap (fun p =>
    let ps := pyStrip p
    if ps = [] then none
    else if "![".toList.isPrefixOf ps ∧ containsSub "](".toList ps then
      some { noteType := "image", content := String.mk ps }
    else some { noteType := "text", content := String.mk ps })

/-- Notes extraction (lines 388–430): the `附加内容` section, then the
`参考资料` section. -/
def _extract_notes (content : List Char) : List NoteEntry :=
  (match searchFirst (trySectionAt ["附加内容"]) content with
   | some s => notesFromSection s
   | none => [])
  ++ (match searchFirst (trySectionAt ["参考资料"]) content with
      | some s => notesFromSection s
      | none => [])

/-- `list(dict.fromkeys(l))` (line 433): deduplicate keeping first
occurrences. -/
def dedupKeepFirst (l : List String) : List String :=
  l.foldl (fun acc x => if acc.contains x then acc else acc ++ [x]) []

/-- `_extract_with_unstructured` (lines 243–435).  The file read of line 247
is modelled by passing the document text; the only sub-extractor that can
raise is `_extract_times` (through `float`). -/
def _extract_with_unstructured (file_path : String) (content : List Char) :
    Except PyError ExtractedData := do
  let title := _extract_title file_path content
  let difficulty := _extract_difficulty content
  let (prep, cook, total) ← _extract_times content
  let (images, imgpos) := _extract_images file_path content
  let ingredients := _extract_ingredients content
  let steps := _extract_steps content imgpos
  let notes := _extract_notes content
  pure { title := title, description := "", difficulty := difficulty,
         ingredients := ingredients, steps := steps,
         prep_time := prep, cook_time := cook, total_time := total,
         images := dedupKeepFirst images, imagesWithPositions := imgpos,
         additional_notes := notes }

/-! ## Posix path arithmetic (`os.path` as used by the source) -/

/-- `posixpath.normpath` (the two-leading-slash special case of posix, which
no input of this code base exercises, is folded into the single-slash case). -/
def pyNormpath (s : String) : String :=
  let l := s.toList
  if l = [] then "."
  else
    let initialSlash := l.head? = some '/'
    let comps := l.splitOn '/'
    let nc := comps.foldl
      (fun acc comp =>
        if comp = [] ∨ comp = ['.'] then acc
        else if comp ≠ ['.', '.'] ∨ (¬initialSlash ∧ acc = [])
            ∨ acc.getLast? = some ['.', '.'] then acc ++ [comp]
        else if acc ≠ [] then acc.dropLast
        else acc)
      []
    let joined := String.intercalate "/" (nc.map String.mk)
    let path := if initialSlash then "/" ++ joined else joined
    if path = "" then "." else path

/-- `os.path.abspath` relative to an explicit working directory. -/
def pyAbspath (cwd s : String) : String := pyNormpath (pyJoin cwd s)

/-- Length of the common prefix of two component lists. -/
def commonPrefixLen : List (List Char) → List (List Char) → ℕ
  | a :: as, b :: bs => if a = b then commonPrefixLen as bs + 1 else 0
  | _, _ => 0

/-- `posixpath.relpath path start` relative to an explicit working
directory. -/
def pyRelpath (cwd path start : String) : String :=
  let pl := ((pyAbspath cwd path).toList.splitOn '/').filter (fun c => c ≠ [])
  let sl := ((pyAbspath cwd start).toList.splitOn '/').filter (fun c => c ≠ [])
  let i := commonPrefixLen pl sl
  let parts := List.replicate (sl.length - i) ['.', '.'] ++ pl.drop i
  if parts = [] then "." else String.intercalate "/" (parts.map String.mk)

/-- The extension part of `os.path.splitext`. -/
def pySplitextExt (s : String) : String :=
  let base := (lastSlashSegment s).toList
  let revAfter := base.reverse.takeWhile (fun c => c ≠ '.')
  if revAfter.length = base.length then ""
  else
    let stem := base.take (base.length - revAfter.length - 1)
    if stem.all (fun c => c = '.') then ""
    else String.mk ('.' :: revAfter.reverse)

/-- The root part of `os.path.splitext` (input minus its extension). -/
def pySplitextRoot (s : String) : String :=
  String.mk (s.toList.take (s.toList.length - (pySplitextExt s).toList.length))

/-- `urlparse(url).path` for an `http://`/`https://` URL (the only inputs on
which the source consults it). -/
def urlPath (s : String) : String :=
  let l := s.toList
  let afterScheme :=
    if "https://".toList.isPrefixOf l then l.drop 8
    else if "http://".toList.isPrefixOf l then l.drop 7
    else l
  let rest := afterScheme.dropWhile (fun c => ¬(c = '/' ∨ c = '?' ∨ c = '#'))
  match rest with
  | '/' :: _ => String.mk (rest.takeWhile (fun c => ¬(c = '?' ∨ c = '#')))
  | _ => ""

/-! ## Python dict as an association list -/

/-- `d.get(k)` / `k in d`. -/
def dictGet (m : List (String × String)) (k : String) : Option String :=
  (m.find? (fun p => p.1 = k)).map (fun p => p.2)

/-- `d[k] = v`. -/
def dictSet (m : List (String × String)) (k v : String) : List (String × String) :=
  if (m.find? (fun p => p.1 = k)).isSome then
    m.map (fun p => if p.1 = k then (k, v) else p)
  else m ++ [(k, v)]

/-! ## `image_handler.py` -/

/-- The ambient state and I/O oracle of the image-transfer collaborator:
`config` constants, the working directory, the stream of fresh UUID file
names, and the success/failure outcome of the network download or local copy
(`transferOk`) and of the recompression (`compressOk`) for a given
reference. -/
structure ImgEnv where
  cdnPath : String
  staticImagesPath : String
  cwd : String
  fresh : ℕ → String
  transferOk : String → Bool
  compressOk : String → Bool

/-- The mutable state threaded through image processing: the caller-owned
`image_mapping` dict and the number of fresh UUID names consumed so far. -/
structure ImgState where
  mapping : List (String × String)
  counter : ℕ
  deriving Repr

/-- `get_new_image` (image_handler.py lines 24–98): choose the target path
(from the mapping, or a fresh UUID name with the extension logic of lines
30–46), attempt the download (URL) or copy (local file), returning the
original reference on failure (lines 51–71), then recompress — JPEG/PNG
become WebP — ignoring compression errors (lines 73–96), and finally record
the mapping (line 97). -/
def get_new_image (image_path : String) (st : ImgState) (env : ImgEnv) :
    String × ImgState :=
  let chosen : String × ImgState :=
    match dictGet st.mapping image_path with
    | some p => (p, st)
    | none =>
      let ext0 := pySplitextExt image_path
      let ext1 :=
        if ext0 = "" ∧ (image_path.startsWith "http://" ∨ image_path.startsWith "https://")
        then pySplitextExt (urlPath image_path)
        else ext0
      let ext := if ext1 = "" then ".webp" else ext1
      let newFilename := env.fresh st.counter ++ ext
      (slashify (pyJoin env.staticImagesPath newFilename),
       { st with counter := st.counter + 1 })
  let new_path := chosen.1
  let st1 := chosen.2
  if env.transferOk image_path then
    let new_path2 :=
      if env.compressOk new_path then
        let ext := (pySplitextExt new_path).toLower
        if ext = ".jpg" ∨ ext = ".jpeg" ∨ ext = ".png" then
          pySplitextRoot new_path ++ ".webp"
        else new_path
      else new_path
    (new_path2, { st1 with mapping := dictSet st1.mapping image_path new_path2 })
  else
    -- download / copy failed: `return image_path`, the mapping is not updated
    (image_path, st1)

/-- `copy_image_to_recipes` (image_handler.py lines 10–21): `None` on a falsy
reference, otherwise the CDN prefix plus the new path rewritten relative to
the working directory. -/
def copy_image_to_recipes (image_path : String) (st : ImgState) (env : ImgEnv) :
    Option String × ImgState :=
  if image_path = "" then (none, st)
  else
    let r := get_new_image image_path st env
    (some (env.cdnPath ++ pyRelpath env.cwd r.1 env.cwd), r.2)

/-- `_process_images` (src/project/parse_dishes.py lines 437–448): process
each image, keeping the truthy results. -/
def _process_images (images : List String) (st : ImgState) (env : ImgEnv) :
    List String × ImgState :=
  images.foldl
    (fun (acc : List String × ImgState) img =>
      let r := copy_image_to_recipes img acc.2 env
      match r.1 with
      | some s => if s ≠ "" then (acc.1 ++ [s], r.2) else (acc.1, r.2)
      | none => (acc.1, r.2))
    ([], st)

/-! ## `uuid_create.py` and `_extract_dish_id` -/

/-- Lowercase hexadecimal digit (the alphabet of `str(uuid.uuid4())` besides
the hyphens). -/
def isHexDigit (c : Char) : Bool := c.isDigit || ('a' ≤ c && c ≤ 'f')

/-- Shape of `str(uuid.uuid4())`: 36 characters over lowercase hex digits and
hyphens.  (The precise hyphen positions are irrelevant to the theorems; what
matters is that the alphabet excludes `.`.) -/
def isUuidStr (s : String) : Bool :=
  s.toList.length = 36 && s.toList.all (fun c => isHexDigit c || c = '-')

/-- The `.md`-traversal loop of `generate_uuid_for_md_files`
(uuid_create.py lines 19–29): for every walked file ending in `.md`, compute
its path relative to the repository root and, when no entry for it exists,
insert a fresh entry **keyed by the generated UUID with the relative path as
the value** (line 29: `uuid_mapping[new_uuid] = relative_path`).  The
repository root read at line 25 under the name `path` is taken here as the
parameter of the same name (as in the `UuidCreate.py` variant of the same
function, where it is the function's parameter); `uuids` is the stream of
generated `str(uuid.uuid4())` values and `init` the mapping read from the
UUID file (empty when the file does not exist). -/
def uuidGenStep (path cwd : String) (uuids : ℕ → String)
    (acc : List (String × String) × ℕ) (file_path : String) :
    List (String × String) × ℕ :=
  if file_path.endsWith ".md" then
    let relative_path := slashify (pyRelpath cwd file_path path)
    if (acc.1.find? (fun p => p.1 = relative_path)).isSome then acc
    else (acc.1 ++ [(uuids acc.2, relative_path)], acc.2 + 1)
  else acc

/-- The whole traversal, starting from the mapping read from the UUID file. -/
def generate_uuid_for_md_files (path cwd : String) (files : List String)
    (uuids : ℕ → String) (init : List (String × String)) :
    List (String × String) :=
  (files.foldl (uuidGenStep path cwd uuids) (init, 0)).1

/-- `_extract_dish_id` (src/project/parse_dishes.py lines 222–233): look the
document's path (relative to the working directory) up in the identifier
mapping; `if not dish_id: raise ValueError(...)`. -/
def _extract_dish_id (file_path : String) (uuid_mapping : List (String × String))
    (cwd : String) : Except PyError String :=
  let relative_path := slashify (pyRelpath cwd file_path cwd)
  match dictGet uuid_mapping relative_path with
  | some dish_id =>
    if dish_id = "" then
      Except.error (.valueError ("未找到文件 " ++ relative_path ++ " 的UUID映射"))
    else Except.ok dish_id
  | none =>
    Except.error (.valueError ("未找到文件 " ++ relative_path ++ " 的UUID映射"))

/-! ## `parse_markdown_file` and `scan_dishes_directory` -/

/-- The output record shape of `parse_markdown_file` (lines 539–556). -/
structure Record where
  id : String
  name : String
  description : String
  source_path : String
  image_path : Option String
  images : List String
  category : String
  difficulty : ℕ
  tags : List String
  servings : ℕ
  ingredients : List Ingredient
  steps : List StepEntry
  prep_time_minutes : Option ℤ
  cook_time_minutes : Option ℤ
  total_time_minutes : Option ℤ
  additional_notes : List NoteEntry
  deriving Repr

/-- `parse_markdown_file` (src/project/parse_dishes.py lines 451–556).  The
file read happens inside `_extract_with_unstructured` (modelled by passing
the document text).  After `extracted_data` (line 456) and the processed
`images` (line 462) are computed, line 471 executes `if image_path:` — but
the name `image_path` is assigned nowhere in the function body (the locals
assigned before this point are `extracted_data`, `images`, `processed_steps`
and `all_available_images`) and no module-level binding of that name exists,
so CPython raises `NameError` here, before the record of line 539 is ever
built.  The image-mapping mutations performed by `_process_images` up to
that point persist (the dict is mutated in place), which the returned
`ImgState` reflects. -/
def parse_markdown_file (file_path : String) (content : List Char)
    (category : String) (uuid_mapping : List (String × String))
    (st : ImgState) (base_path : String) (env : ImgEnv) :
    Except PyError Record × ImgState :=
  match _extract_with_unstructured file_path content with
  | .error e => (.error e, st)
  | .ok extracted_data =>
    let processed := _process_images extracted_data.images st env
    (.error (.nameError "image_path"), processed.2)

/-- `str(e)` for the diagnostics printed by the batch driver. -/
def errText : PyError → String
  | .nameError n => "name '" ++ n ++ "' is not defined"
  | .valueError m => m

/-- The `category_map` of `scan_dishes_directory` (lines 566–577), in source
order. -/
def categoryMap : List (String × String) :=
  [("aquatic", "水产"), ("breakfast", "早餐"), ("condiment", "佐料"),
   ("dessert", "甜品"), ("drink", "饮品"), ("meat_dish", "肉食"),
   ("semi-finished", "半成品"), ("soup", "汤类"), ("staple", "主食"),
   ("vegetable_dish", "素菜")]

/-- One directory yielded by `os.walk`: its path and the plain files in it. -/
structure WalkEntry where
  root : String
  files : List String

/-- The category name derived from a walked directory (lines 583–588). -/
def categoryOf (cwd directory root : String) : String :=
  let relative_root := slashify (pyRelpath cwd root directory)
  match relative_root.toList.splitOn '/' with
  | [] => "unknown"
  | p :: _ => if p = [] then "unknown" else String.mk p

/-- Append a parsed record to its category's list. -/
def appendAt (cats : List (String × List Record)) (k : String) (d : Record) :
    List (String × List Record) :=
  cats.map (fun c => if c.1 = k then (c.1, c.2 ++ [d]) else c)

/-- The per-file body of the inner loop of `scan_dishes_directory` (lines
594–601): parse each `.md` file, appending the record on success and logging
the diagnostic of line 601 on any per-document exception. -/
def scanFileStep (uuid_mapping : List (String × String)) (base_path : String)
    (env : ImgEnv) (readFile : String → List Char) (category root : String)
    (acc2 : List (String × List Record) × List String × ImgState)
    (file : String) :
    List (String × List Record) × List String × ImgState :=
  if file.endsWith ".md" then
    let file_path := slashify (pyJoin root file)
    let catLabel := (((categoryMap.find? (fun p => p.1 = category)).map
      (fun p => p.2)).getD "")
    let r := parse_markdown_file file_path (readFile file_path) catLabel
      uuid_mapping acc2.2.2 base_path env
    match r.1 with
    | .ok d => (appendAt acc2.1 category d, acc2.2.1, r.2)
    | .error e =>
      (acc2.1,
       acc2.2.1 ++ ["解析文件 " ++ file_path ++ " 时出错: " ++ errText e],
       r.2)
  else acc2

/-- The per-directory body of the outer loop of `scan_dishes_directory`
(lines 582–601): compute the directory's category and skip the whole
directory (silently — the `continue` of line 592 prints nothing) when the
category is not a key of the map. -/
def scanEntryStep (directory : String) (uuid_mapping : List (String × String))
    (base_path : String) (env : ImgEnv) (readFile : String → List Char)
    (acc : List (String × List Record) × List String × ImgState)
    (entry : WalkEntry) :
    List (String × List Record) × List String × ImgState :=
  let category := categoryOf env.cwd directory entry.root
  if (categoryMap.find? (fun p => p.1 = category)).isSome then
    entry.files.foldl
      (scanFileStep uuid_mapping base_path env readFile category entry.root)
      acc
  else acc

/-- `scan_dishes_directory` (lines 559–603): initialise one empty list per
known category, then process every walked directory.  Returns (per-category
lists, printed diagnostics, image state). -/
def scan_dishes_directory (walk : List WalkEntry) (directory : String)
    (uuid_mapping : List (String × String)) (st : ImgState)
    (base_path : String) (env : ImgEnv) (readFile : String → List Char) :
    List (String × List Record) × List String × ImgState :=
  let init : List (String × List Record) := categoryMap.map (fun p => (p.1, []))
  walk.foldl (scanEntryStep directory uuid_mapping base_path env readFile)
    (init, ([], st))

/-! ## Concrete inputs used by the counterexamples and witnesses -/

/-- A well-formed minimal document: title, difficulty, no time mention, no
steps of any format. -/
def docNoSteps : String := "# 蛋\n预估烹饪难度：★\n"

/-- A document whose ingredient section contains two list entries of
identical parsed name. -/
def docDupIngredients : String :=
  "## 必备原料和工具\n\n- 盐 2克\n- 盐 2克\n"

/-- A document whose only time mention is the labelled total-time field. -/
def docTotalTime : String := "预估总时间：2 小时"

/-- A document whose only time mention is a compound Chinese numeral matched
by two of the six step patterns. -/
def docTwentyMin : String := "炖二十分钟"

/-- A document whose labelled time field carries a multi-character Chinese
numeral that the labelled-field conversion passes to `float`, which raises
`ValueError` — before `parse_markdown_file` can reach its `NameError`. -/
def docShiwu : String := "预估总时间：十五分钟"

/-- A concrete environment for the image-transfer collaborator in which
every transfer fails. -/
def imgEnvDemo : ImgEnv :=
  { cdnPath := "https://cdn.example/"
    staticImagesPath := "static/images"
    cwd := "/w"
    fresh := fun n => "u" ++ toString n
    transferOk := fun _ => false
    compressOk := fun _ => true }

/-! ## Theorems -/

/-- Claim C3, counterexample: on a document in which the steps extractor
finds zero step lines in all three formats, the emitted steps sequence is
empty — it does not contain the single placeholder step with ordinal 1 and a
fixed "no detailed steps available" description that the claim asserts (no
such placeholder exists anywhere in the source). -/
theorem C3_counterexample :
    stepTitleLines docNoSteps.toList = [] ∧
    stepListLines docNoSteps.toList = [] ∧
    fullContentTitleLines docNoSteps.toList = [] ∧
    _extract_steps docNoSteps.toList [] = [] :=
  ⟨rfl, rfl, rfl, rfl⟩

/-- Claim C3 (amended): for every document in which the steps extractor finds
zero step lines — no heading-format steps in the steps text, no list-format
steps in the steps text, and no heading-format steps in the whole document —
the emitted steps sequence is empty; no placeholder step is synthesized. -/
theorem C3_steps_empty (content : List Char) (imgs : List (String × String))
    (h1 : stepTitleLines content = [])
    (h2 : stepListLines content = [])
    (h3 : fullContentTitleLines content = []) :
    _extract_steps content imgs = [] := by
  unfold _extract_steps
  rw [h1, h2, h3]
  simp [buildSteps]

/-- Witness for C3's amended theorem at a concrete document. -/
theorem C3_steps_empty_witness :
    _extract_steps docNoSteps.toList [] = [] :=
  C3_steps_empty docNoSteps.toList [] rfl rfl rfl

/-- Claim C4, counterexample: on a document whose ingredient section holds
two list entries with identical parsed name, both entries appear in the
output — the later one is not suppressed as the claim asserts. -/
theorem C4_counterexample :
    (_extract_ingredients docDupIngredients.toList).map Ingredient.name
      = ["盐", "盐"] := rfl

/-- Claim C4 (amended): within one document, ingredient entries are never
deduplicated: the output contains exactly one entry per discovered list line
(main ingredients section lines first, then calculation section lines, in
order of discovery), whatever the parsed names, so entries with identical
extracted names are all kept. -/
theorem C4_ingredients_no_suppression (content : List Char) :
    (_extract_ingredients content).map Ingredient.name
      = (ingredientLines content ++ calcLines content).map
          (fun l => (parse_ingredient_text (String.mk l)).1) ∧
    (_extract_ingredients content).length
      = (ingredientLines content).length + (calcLines content).length := by
  constructor
  · unfold _extract_ingredients
    rw [List.map_map]
    rfl
  · unfold _extract_ingredients
    rw [List.length_map, List.length_append]

/-- Claim C10: in the step-derived time fallback, each time mention is
collected once per pattern it matches.  The document `炖二十分钟` contains one
single time mention (20 minutes as the compound numeral `二十`), which is
matched both by step pattern 1 (general Chinese numerals) and by step
pattern 5 (compound numerals); it therefore appears twice in
`step_time_matches` and the summed step total assigned to the cook/total
minutes is 40, twice the mentioned 20. -/
theorem C10_double_count :
    stepTimeMatches docTwentyMin.toList = [("二十", "分钟"), ("二十", "分钟")] ∧
    _extract_times docTwentyMin.toList = .ok (none, some 40, some 40) :=
  ⟨rfl, by with_unfolding_all rfl⟩

/-- Claim C5, counterexample: on the document whose only time mention is the
labelled field `预估总时间：2 小时`, the Time Normalizer returns
total = 120 **and cook = 120** (the step-derived fallback re-matches the
`2 小时` inside the labelled field and, cook being absent, assigns the step
sum to it), contradicting the claim that prep and cook are both absent. -/
theorem C5_counterexample :
    _extract_times docTotalTime.toList = .ok (none, some 120, some 120) := by
  unfold _extract_times
  rw [show findall tryLabeledAt docTotalTime.toList
        = [("预估总时间", "2", "小时")] from rfl,
      show stepTimeMatches docTotalTime.toList = [("2", "小时")] from rfl]
  with_unfolding_all rfl

/-- Claim C5 (amended): for every document whose only time mention is the
labelled field `预估总时间：2 小时` (formally: the labelled-pattern matches are
exactly that field and the step-pattern matches are exactly the `2 小时` that
the field itself contains), the Time Normalizer returns
total_time_minutes = 120, prep_time_minutes absent, and
cook_time_minutes = 120 — cook is not absent, because the step-derived
fallback runs whenever prep or cook is missing and assigns its sum to
cook. -/
theorem C5_total_time_field (content : List Char)
    (h1 : findall tryLabeledAt content = [("预估总时间", "2", "小时")])
    (h2 : stepTimeMatches content = [("2", "小时")]) :
    _extract_times content = .ok (none, some 120, some 120) := by
  unfold _extract_times
  rw [h1, h2]
  with_unfolding_all rfl

/-- Witness for C5's amended theorem at the concrete document. -/
theorem C5_total_time_field_witness :
    _extract_times docTotalTime.toList = .ok (none, some 120, some 120) :=
  C5_total_time_field docTotalTime.toList rfl rfl

/-- Claim C6, counterexample: for an image reference whose transfer fails,
the value recorded for the output `images`/`image_path` fields is **not** the
original reference unchanged: `copy_image_to_recipes` wraps the (unchanged)
reference returned by `get_new_image` in
`config.CDNPath + os.path.relpath(·, os.getcwd())`, which both prefixes the
CDN path and collapses the `//` of a URL. -/
theorem C6_counterexample :
    copy_image_to_recipes "http://e.com/a.png" ⟨[], 0⟩ imgEnvDemo
      = (some "https://cdn.example/http:/e.com/a.png", ⟨[], 1⟩) ∧
    ("https://cdn.example/http:/e.com/a.png" : String) ≠ "http://e.com/a.png" :=
  ⟨by with_unfolding_all rfl, by decide⟩

/-- Claim C6 (amended): for every image reference whose transfer fails
(network download error or local copy error), `get_new_image` returns the
original reference unchanged and leaves the image mapping untouched, and the
failure never propagates (the collaborator is a total function); but the
value that reaches the output `images`/`image_path` fields is
`copy_image_to_recipes`'s wrapping of it,
`CDNPath ++ relpath(original, cwd)`, not the original string itself. -/
theorem C6_transfer_failure (image_path : String) (st : ImgState) (env : ImgEnv)
    (hfail : env.transferOk image_path = false) (hne : image_path ≠ "") :
    (get_new_image image_path st env).1 = image_path ∧
    (get_new_image image_path st env).2.mapping = st.mapping ∧
    (copy_image_to_recipes image_path st env).1
      = some (env.cdnPath ++ pyRelpath env.cwd image_path env.cwd) := by
  unfold copy_image_to_recipes get_new_image
  cases h : dictGet st.mapping image_path <;> simp [h, hfail, hne]

/-- Witness for C6's amended theorem at a concrete failing transfer. -/
theorem C6_transfer_failure_witness :
    (get_new_image "http://e.com/a.png" ⟨[], 0⟩ imgEnvDemo).1 = "http://e.com/a.png" ∧
    (get_new_image "http://e.com/a.png" ⟨[], 0⟩ imgEnvDemo).2.mapping = [] ∧
    (copy_image_to_recipes "http://e.com/a.png" ⟨[], 0⟩ imgEnvDemo).1
      = some (imgEnvDemo.cdnPath
          ++ pyRelpath imgEnvDemo.cwd "http://e.com/a.png" imgEnvDemo.cwd) :=
  C6_transfer_failure "http://e.com/a.png" ⟨[], 0⟩ imgEnvDemo rfl (by decide)

/-- Claim C8, counterexample: when no pattern matches, the parser does not
return the entire original text as the name — it returns the text after the
preprocessing of line 20 (whitespace stripped, every `：`/`:` removed). -/
theorem C8_counterexample :
    parse_ingredient_text "盐：适量" = ("盐适量", none, none) ∧
    ("盐适量" : String) ≠ "盐：适量" :=
  ⟨by with_unfolding_all rfl, by decide⟩

/-- Claim C8 (amended): `parse_ingredient_text` never raises (it is a total
function of its input, as its type shows), and whenever none of the range,
number-plus-unit, or bare-number patterns match the preprocessed text, it
returns the preprocessed text — the original stripped of surrounding
whitespace and with all fullwidth/ASCII colons removed — as the name, with
quantity and unit both absent. -/
theorem C8_fallback_name (text : String)
    (h1 : searchRange (removeColons (pyStrip text.toList)) = none)
    (h2 : searchNumUnit (removeColons (pyStrip text.toList)) = none)
    (h3 : searchNumEnd (removeColons (pyStrip text.toList)) = none) :
    parse_ingredient_text text
      = (String.mk (removeColons (pyStrip text.toList)), none, none) := by
  simp only [parse_ingredient_text]
  rw [h1, h2, h3]

/-- Witness for C8's amended theorem at a concrete unmatched line. -/
theorem C8_fallback_name_witness :
    parse_ingredient_text "盐：适量"
      = (String.mk (removeColons (pyStrip "盐：适量".toList)), none, none) :=
  C8_fallback_name "盐：适量" (by with_unfolding_all rfl)
    (by with_unfolding_all rfl) (by with_unfolding_all rfl)

/-- Claim C9, counterexample: a walked directory whose category name is not
one of the 10 known categories is skipped, its documents are excluded from
every category's collection and the batch completes — but **no diagnostic is
recorded** for the skipped directory: the diagnostics list of the result is
empty, contradicting the claim that a diagnostic is recorded. -/
theorem C9_counterexample :
    scan_dishes_directory [⟨"./dishes/foo", ["a.md"]⟩] "./dishes" [] ⟨[], 0⟩ "/w"
      imgEnvDemo (fun _ => docNoSteps.toList)
      = (categoryMap.map (fun p => (p.1, [])), ([], ⟨[], 0⟩)) := by
  with_unfolding_all rfl

/-- Claim C9 (amended): for every walked directory whose category name is not
one of the 10 known categories, its documents are excluded from every
category's output collection and the batch is not aborted, but the directory
is skipped silently — no diagnostic is recorded for it (the `continue` of
line 592 prints nothing). -/
theorem C9_unknown_category (root : String) (files : List String)
    (directory : String) (uuid_mapping : List (String × String)) (st : ImgState)
    (base_path : String) (env : ImgEnv) (readFile : String → List Char)
    (h : (categoryMap.find?
      (fun p => p.1 = categoryOf env.cwd directory root)).isSome = false) :
    scan_dishes_directory [⟨root, files⟩] directory uuid_mapping st base_path
      env readFile
      = (categoryMap.map (fun p => (p.1, [])), ([], st)) := by
  unfold scan_dishes_directory
  simp [scanEntryStep, h]

/-- Witness for C9's amended theorem at a concrete unrecognized directory. -/
theorem C9_unknown_category_witness :
    scan_dishes_directory [⟨"./dishes/foo", ["a.md"]⟩] "./dishes" [] ⟨[], 0⟩ "/w"
      imgEnvDemo (fun _ => docNoSteps.toList)
      = (categoryMap.map (fun p => (p.1, [])), ([], ⟨[], 0⟩)) :=
  C9_unknown_category "./dishes/foo" ["a.md"] "./dishes" [] ⟨[], 0⟩ "/w"
    imgEnvDemo (fun _ => docNoSteps.toList) (by with_unfolding_all rfl)

/-- A string containing a dot is not of UUID shape ('.' is neither a hex
digit nor a hyphen). -/
theorem isUuidStr_eq_false_of_dot (s : String) (h : '.' ∈ s.toList) :
    isUuidStr s = false := by
  unfold isUuidStr
  cases hall : s.toList.all (fun c => isHexDigit c || c = '-') with
  | false => rw [Bool.and_false]
  | true =>
    exfalso
    have := List.all_eq_true.mp hall '.' h
    exact absurd this (by decide)

/-- Looking a non-UUID-shaped key up in a mapping whose keys are all
UUID-shaped finds nothing. -/
theorem dictGet_eq_none (m : List (String × String)) (k : String)
    (hm : ∀ p ∈ m, isUuidStr p.1 = true) (hk : isUuidStr k = false) :
    dictGet m k = none := by
  induction m with
  | nil => rfl
  | cons q t ih =>
    have hq : isUuidStr q.1 = true := hm q (by simp)
    have hne : ¬(q.1 = k) := by
      intro he
      rw [he, hk] at hq
      exact Bool.false_ne_true hq
    unfold dictGet
    rw [List.find?_cons]
    simp only [decide_eq_false hne]
    exact ih (fun p hp => hm p (List.mem_cons_of_mem _ hp))

/-- One step of the UUID-generation loop only adds entries keyed by freshly
generated UUIDs. -/
theorem uuidGenStep_keys (path cwd : String) (uuids : ℕ → String)
    (huu : ∀ n, isUuidStr (uuids n) = true)
    (acc : List (String × String) × ℕ) (file_path : String)
    (hacc : ∀ p ∈ acc.1, isUuidStr p.1 = true) :
    ∀ p ∈ (uuidGenStep path cwd uuids acc file_path).1, isUuidStr p.1 = true := by
  unfold uuidGenStep
  split
  · dsimp only
    split
    · exact hacc
    · intro p hp
      rcases List.mem_append.mp hp with h1 | h2
      · exact hacc p h1
      · rcases List.mem_singleton.mp h2 with rfl
        exact huu acc.2
  · exact hacc

/-- Every key of the mapping built by the UUID-generation loop from an
all-UUID-keyed initial mapping is UUID-shaped. -/
theorem generate_uuid_keys (path cwd : String) (uuids : ℕ → String)
    (huu : ∀ n, isUuidStr (uuids n) = true) :
    ∀ (files : List String) (acc : List (String × String) × ℕ),
      (∀ p ∈ acc.1, isUuidStr p.1 = true) →
      ∀ p ∈ (files.foldl (uuidGenStep path cwd uuids) acc).1,
        isUuidStr p.1 = true := by
  intro files
  induction files with
  | nil => intro acc hacc; exact hacc
  | cons f fs ih =>
    intro acc hacc
    rw [List.foldl_cons]
    exact ih _ (uuidGenStep_keys path cwd uuids huu acc f hacc)

/-- Claim C2: when the identifier mapping starts empty and is populated only
by `generate_uuid_for_md_files` — which keys each inserted entry by the
freshly generated UUID and stores the file's relative path as the value —
`_extract_dish_id`, which queries the mapping **by the document's relative
path**, finds no entry (the relative path contains a `.`, e.g. from its
`.md` suffix, while every key is a dot-free UUID string) and raises
`ValueError` for every document. -/
theorem C2_dish_id_value_error (path cwd cwd2 file_path : String)
    (files : List String) (uuids : ℕ → String)
    (huu : ∀ n, isUuidStr (uuids n) = true)
    (hdot : '.' ∈ (slashify (pyRelpath cwd2 file_path cwd2)).toList) :
    _extract_dish_id file_path
      (generate_uuid_for_md_files path cwd files uuids []) cwd2
      = .error (.valueError ("未找到文件 "
          ++ slashify (pyRelpath cwd2 file_path cwd2) ++ " 的UUID映射")) := by
  have hkeys : ∀ p ∈ generate_uuid_for_md_files path cwd files uuids [],
      isUuidStr p.1 = true :=
    generate_uuid_keys path cwd uuids huu files ([], 0) (by intro p hp; cases hp)
  have hnone : dictGet (generate_uuid_for_md_files path cwd files uuids [])
      (slashify (pyRelpath cwd2 file_path cwd2)) = none :=
    dictGet_eq_none _ _ hkeys (isUuidStr_eq_false_of_dot _ hdot)
  unfold _extract_dish_id
  dsimp only
  rw [hnone]

/-- Witness for C2 at a concrete repository layout: one walked `.md` file,
one generated UUID. -/
theorem C2_dish_id_value_error_witness :
    _extract_dish_id "/w/dishes/soup/a.md"
      (generate_uuid_for_md_files "/w" "/w" ["/w/dishes/soup/a.md"]
        (fun _ => "123e4567-e89b-42d3-a456-426614174000") []) "/w"
      = .error (.valueError ("未找到文件 "
          ++ slashify (pyRelpath "/w" "/w/dishes/soup/a.md" "/w")
          ++ " 的UUID映射")) :=
  C2_dish_id_value_error "/w" "/w" "/w" "/w/dishes/soup/a.md"
    ["/w/dishes/soup/a.md"] (fun _ => "123e4567-e89b-42d3-a456-426614174000")
    (fun _ => rfl) (by with_unfolding_all decide)

/-- `parse_markdown_file` never returns a record: its result is always an
error (the `NameError` on the unassigned `image_path`, or an exception the
extraction phase itself raised). -/
theorem parse_markdown_file_errors (file_path : String) (content : List Char)
    (category : String) (uuid_mapping : List (String × String)) (st : ImgState)
    (base_path : String) (env : ImgEnv) :
    ∃ e, (parse_markdown_file file_path content category uuid_mapping st
      base_path env).1 = Except.error e := by
  unfold parse_markdown_file
  cases h : _extract_with_unstructured file_path content with
  | error e => exact ⟨e, rfl⟩
  | ok d => exact ⟨.nameError "image_path", rfl⟩

/-- The per-file step of the batch driver never extends any category's list
(every parse fails and is caught). -/
theorem scanFileStep_fst (u : List (String × String)) (b : String)
    (env : ImgEnv) (rf : String → List Char) (cat root : String)
    (acc : List (String × List Record) × List String × ImgState)
    (file : String) :
    (scanFileStep u b env rf cat root acc file).1 = acc.1 := by
  unfold scanFileStep
  by_cases hmd : file.endsWith ".md" = true
  · simp only [hmd, if_true]
    obtain ⟨e, he⟩ := parse_markdown_file_errors (slashify (pyJoin root file))
      (rf (slashify (pyJoin root file)))
      (((categoryMap.find? (fun p => p.1 = cat)).map (fun p => p.2)).getD "")
      u acc.2.2 b env
    rw [he]
  · simp [hmd]

/-- Folding the per-file step over any file list leaves the category lists
unchanged. -/
theorem foldl_scanFileStep_fst (u : List (String × String)) (b : String)
    (env : ImgEnv) (rf : String → List Char) (cat root : String) :
    ∀ (files : List String)
      (acc : List (String × List Record) × List String × ImgState),
      (files.foldl (scanFileStep u b env rf cat root) acc).1 = acc.1 := by
  intro files
  induction files with
  | nil => intro acc; rfl
  | cons f fs ih =>
    intro acc
    rw [List.foldl_cons, ih, scanFileStep_fst]

/-- The per-directory step of the batch driver leaves the category lists
unchanged, whether the directory is skipped or all its documents fail. -/
theorem scanEntryStep_fst (directory : String) (u : List (String × String))
    (b : String) (env : ImgEnv) (rf : String → List Char)
    (acc : List (String × List Record) × List String × ImgState)
    (entry : WalkEntry) :
    (scanEntryStep directory u b env rf acc entry).1 = acc.1 := by
  unfold scanEntryStep
  dsimp only
  split
  · exact foldl_scanFileStep_fst u b env rf _ entry.root entry.files acc
  · rfl

/-- Whatever the walked tree, every category's output list is empty. -/
theorem scan_all_categories_empty (walk : List WalkEntry) (directory : String)
    (u : List (String × String)) (st : ImgState) (b : String) (env : ImgEnv)
    (rf : String → List Char) :
    (scan_dishes_directory walk directory u st b env rf).1
      = categoryMap.map (fun p => (p.1, [])) := by
  unfold scan_dishes_directory
  have hfold : ∀ (w : List WalkEntry)
      (acc : List (String × List Record) × List String × ImgState),
      (w.foldl (scanEntryStep directory u b env rf) acc).1 = acc.1 := by
    intro w
    induction w with
    | nil => intro acc; rfl
    | cons e es ih =>
      intro acc
      rw [List.foldl_cons, ih, scanEntryStep_fst]
  exact hfold walk _

/-- Claim C1, counterexample: `parse_markdown_file` does **not** raise
`NameError` for every input — on a document whose labelled time field holds
the multi-character Chinese numeral `十五`, `_extract_times` (reached through
`_extract_with_unstructured` at line 456, before the `image_path` read at
line 471) raises `ValueError` from `float('十五')` first. -/
theorem C1_counterexample :
    (parse_markdown_file "./dishes/soup/b.md" docShiwu.toList "汤类" [] ⟨[], 0⟩
        "/w" imgEnvDemo).1
      = .error (.valueError "could not convert string to float: 十五") ∧
    ∀ n, (parse_markdown_file "./dishes/soup/b.md" docShiwu.toList "汤类" []
        ⟨[], 0⟩ "/w" imgEnvDemo).1 ≠ .error (.nameError n) := by
  constructor
  · rfl
  · intro n h
    rw [show (parse_markdown_file "./dishes/soup/b.md" docShiwu.toList "汤类" []
        ⟨[], 0⟩ "/w" imgEnvDemo).1
        = .error (.valueError "could not convert string to float: 十五") from
      rfl] at h
    exact PyError.noConfusion (Except.error.inj h)

/-- Claim C1 (amended): for every document on which the extraction phase
itself does not raise (i.e. `_extract_with_unstructured` returns), the
assembler `parse_markdown_file` raises an unhandled `NameError` before
returning a record, because the local variable `image_path` is read (in the
`if image_path:` check at line 471 and in the returned record at line 544)
without ever being assigned; and in every case — `NameError` or an earlier
extractor exception — the batch driver's per-document exception handler
catches the error, so every document is skipped and every category's output
list is empty. -/
theorem C1_image_path_name_error (file_path : String) (content : List Char)
    (category : String) (uuid_mapping : List (String × String)) (st : ImgState)
    (base_path : String) (env : ImgEnv)
    (hok : (_extract_with_unstructured file_path content).isOk = true) :
    (parse_markdown_file file_path content category uuid_mapping st base_path
        env).1 = .error (.nameError "image_path") ∧
    ∀ (walk : List WalkEntry) (directory : String)
      (u : List (String × String)) (st2 : ImgState) (b : String)
      (env2 : ImgEnv) (rf : String → List Char),
      (scan_dishes_directory walk directory u st2 b env2 rf).1
        = categoryMap.map (fun p => (p.1, [])) := by
  constructor
  · unfold parse_markdown_file
    cases h : _extract_with_unstructured file_path content with
    | error e => rw [h] at hok; exact absurd hok (by simp [Except.isOk, Except.toBool])
    | ok d => rfl
  · intro walk directory u st2 b env2 rf
    exact scan_all_categories_empty walk directory u st2 b env2 rf

/-- Witness for C1's amended theorem at a concrete well-formed document and a
concrete walked tree. -/
theorem C1_image_path_name_error_witness :
    (parse_markdown_file "./dishes/soup/b.md" docNoSteps.toList "汤类" []
        ⟨[], 0⟩ "/w" imgEnvDemo).1 = .error (.nameError "image_path") ∧
    (scan_dishes_directory [⟨"./dishes/soup", ["b.md"]⟩] "./dishes" [] ⟨[], 0⟩
        "/w" imgEnvDemo (fun _ => docNoSteps.toList)).1
      = categoryMap.map (fun p => (p.1, [])) := by
  have h := C1_image_path_name_error "./dishes/soup/b.md" docNoSteps.toList
    "汤类" [] ⟨[], 0⟩ "/w" imgEnvDemo rfl
  exact ⟨h.1, h.2 [⟨"./dishes/soup", ["b.md"]⟩] "./dishes" [] ⟨[], 0⟩ "/w"
    imgEnvDemo (fun _ => docNoSteps.toList)⟩

/-! ### Character and list lemmas for the quantity-parser theorems -/

/-- A digit character is not whitespace. -/
theorem isSpaceC_eq_false_of_digit (c : Char) (h : isDigitC c = true) :
    isSpaceC c = false := by
  by_contra hc
  rw [Bool.not_eq_false] at hc
  simp only [isSpaceC, Bool.or_eq_true, decide_eq_true_eq] at hc
  rcases hc with ((((rfl | rfl) | rfl) | rfl) | rfl) | rfl <;>
    exact absurd h (by decide)

/-- A digit character is none of the special characters of the patterns. -/
theorem char_ne_of_digit (c : Char) (h : isDigitC c = true) :
    c ≠ '：' ∧ c ≠ ':' ∧ c ≠ '-' ∧ c ≠ '.' ∧ c ≠ '\n' := by
  refine ⟨?_, ?_, ?_, ?_, ?_⟩ <;> (intro he; rw [he] at h; exact absurd h (by decide))

/-- `dropWhile` over an append whose second part starts with a
non-matching character. -/
theorem dropWhile_append_cons (p : Char → Bool) (a : List Char) (c : Char)
    (l : List Char) (hc : p c = false) :
    (a ++ c :: l).dropWhile p = a.dropWhile p ++ c :: l := by
  induction a with
  | nil => simp [List.dropWhile_cons, hc]
  | cons x xs ih =>
    simp only [List.cons_append, List.dropWhile_cons]
    by_cases hx : p x = true
    · simp only [hx, if_true]
      exact ih
    · simp only [Bool.not_eq_true] at hx
      simp [hx]

/-- `dropWhile` does nothing when the head does not match. -/
theorem dropWhile_eq_self_of_head (p : Char → Bool) (c : Char) (l : List Char)
    (hc : p c = false) : (c :: l).dropWhile p = c :: l := by
  simp [List.dropWhile_cons, hc]

/-- `dropWhile` through an all-matching prefix. -/
theorem dropWhile_all_append (p : Char → Bool) (a b : List Char)
    (ha : ∀ c ∈ a, p c = true) (hb : b.dropWhile p = b) :
    (a ++ b).dropWhile p = b := by
  induction a with
  | nil => simpa using hb
  | cons x xs ih =>
    simp only [List.cons_append, List.dropWhile_cons, ha x (by simp), if_true]
    exact ih (fun c hc => ha c (by simp [hc]))

/-- `dropWhile` is idempotent. -/
theorem dropWhile_idem (p : Char → Bool) (l : List Char) :
    (l.dropWhile p).dropWhile p = l.dropWhile p := by
  induction l with
  | nil => rfl
  | cons c t ih =>
    rw [List.dropWhile_cons]
    by_cases hc : p c = true
    · simp [hc, ih]
    · simp only [Bool.not_eq_true] at hc
      simp [hc, dropWhile_eq_self_of_head p c t hc]

/-- `takeWhile`/`dropWhile` of digits over a digit run followed by a
non-digit (or nothing). -/
theorem span_digits_append (ds rest : List Char)
    (hds : ∀ c ∈ ds, isDigitC c = true)
    (hrest : ∀ c, rest.head? = some c → isDigitC c = false) :
    (ds ++ rest).takeWhile isDigitC = ds ∧
    (ds ++ rest).dropWhile isDigitC = rest := by
  induction ds with
  | nil =>
    cases rest with
    | nil => exact ⟨rfl, rfl⟩
    | cons c r =>
      have hc := hrest c rfl
      simp [List.takeWhile_cons, List.dropWhile_cons, hc]
  | cons d ds' ih =>
    have hd := hds d (by simp)
    have ih2 := ih (fun c hc => hds c (by simp [hc]))
    simp only [List.cons_append, List.takeWhile_cons, List.dropWhile_cons, hd,
      if_true]
    exact ⟨by rw [ih2.1], by rw [ih2.2]⟩

/-- `removeColons` does nothing on a colon-free list. -/
theorem removeColons_eq_self (l : List Char)
    (h : ∀ c ∈ l, c ≠ '：' ∧ c ≠ ':') : removeColons l = l := by
  unfold removeColons
  rw [List.filter_eq_self]
  intro c hc
  simp [(h c hc).1, (h c hc).2]

/-- The facts about the unit alphabet that the quantity-parser proofs use:
every unit is non-empty, contains no digits, whitespace, colons, hyphens or
dots, and is matched (entire, at the end of the input) by the ordered
alternation over `units`. -/
theorem units_facts : ∀ u ∈ units,
    u.toList ≠ [] ∧
    (∀ c ∈ u.toList, isDigitC c = false ∧ isSpaceC c = false ∧
      c ≠ '：' ∧ c ≠ ':' ∧ c ≠ '-' ∧ c ≠ '.') ∧
    matchAlt units u.toList = some (u, []) := by decide

/-- `parseNum` fails on a non-digit head. -/
theorem parseNum_none_of_head (c : Char) (l : List Char)
    (hc : isDigitC c = false) : parseNum (c :: l) = none := by
  unfold parseNum
  simp [List.takeWhile_cons, hc]

/-- `parseNum` on a digit run followed by something that starts with neither
a digit nor a dot. -/
theorem parseNum_digits (ds rest : List Char) (hne : ds ≠ [])
    (hds : ∀ c ∈ ds, isDigitC c = true)
    (hrest : ∀ c, rest.head? = some c → isDigitC c = false ∧ c ≠ '.') :
    parseNum (ds ++ rest) = some (ds, rest) := by
  obtain ⟨ht, hd⟩ := span_digits_append ds rest hds (fun c hc => (hrest c hc).1)
  unfold parseNum
  rw [ht, hd]
  simp only [hne, if_false]
  cases rest with
  | nil => rfl
  | cons c r =>
    have hc := (hrest c rfl).2
    simp [hc]

/-- `parseNum` on a digit run with a fractional part followed by something
that does not start with a digit. -/
theorem parseNum_digits_frac (ds fs' rest : List Char) (hne : ds ≠ [])
    (hds : ∀ c ∈ ds, isDigitC c = true) (hfne : fs' ≠ [])
    (hfs : ∀ c ∈ fs', isDigitC c = true)
    (hrest : ∀ c, rest.head? = some c → isDigitC c = false) :
    parseNum (ds ++ '.' :: fs' ++ rest) = some (ds ++ '.' :: fs', rest) := by
  obtain ⟨ht, hd⟩ := span_digits_append ds ('.' :: (fs' ++ rest)) hds
    (fun c hc => by
      simp only [List.head?_cons, Option.some.injEq] at hc
      rw [← hc]
      decide)
  obtain ⟨ht2, hd2⟩ := span_digits_append fs' rest hfs hrest
  unfold parseNum
  have hassoc : ds ++ '.' :: fs' ++ rest = ds ++ '.' :: (fs' ++ rest) := by
    simp
  rw [hassoc, ht, hd]
  simp only [hne, if_false]
  rw [ht2, hd2]
  simp [hfne]

/-- `tryRangeAt` fails on a non-digit head. -/
theorem tryRangeAt_none_of_head (c : Char) (l : List Char)
    (hc : isDigitC c = false) : tryRangeAt (c :: l) = none := by
  unfold tryRangeAt
  rw [parseNum_none_of_head c l hc]
  rfl

/-- `tryNumUnitAt` fails on a non-digit head. -/
theorem tryNumUnitAt_none_of_head (c : Char) (l : List Char)
    (hc : isDigitC c = false) : tryNumUnitAt (c :: l) = none := by
  unfold tryNumUnitAt
  rw [parseNum_none_of_head c l hc]
  rfl

/-- Unfolding lemma for `searchRange` on a cons cell. -/
theorem searchRange_cons_eq (c : Char) (rest : List Char) :
    searchRange (c :: rest)
      = match tryRangeAt (c :: rest) with
        | some (n1, n2, u, r) => some ([], n1, n2, u, r)
        | none => (searchRange rest).map
            (fun r => (c :: r.1, r.2.1, r.2.2.1, r.2.2.2.1, r.2.2.2.2)) := rfl

/-- `searchRange` steps over a position where the pattern does not match. -/
theorem searchRange_cons_of_none (c : Char) (rest : List Char)
    (h1 : tryRangeAt (c :: rest) = none) :
    searchRange (c :: rest) = (searchRange rest).map
      (fun r => (c :: r.1, r.2.1, r.2.2.1, r.2.2.2.1, r.2.2.2.2)) := by
  rw [searchRange_cons_eq c rest, h1]

/-- `searchRange` returns the empty-prefix match when the pattern matches at
the head. -/
theorem searchRange_cons_of_some (c : Char) (rest n1 n2 : List Char)
    (u : String) (r : List Char)
    (h1 : tryRangeAt (c :: rest) = some (n1, n2, u, r)) :
    searchRange (c :: rest) = some ([], n1, n2, u, r) := by
  rw [searchRange_cons_eq c rest, h1]

/-- The range pattern finds no match in a digit-free list. -/
theorem searchRange_none_of_all_nondigit (l : List Char)
    (h : ∀ c ∈ l, isDigitC c = false) : searchRange l = none := by
  induction l with
  | nil => rfl
  | cons c t ih =>
    rw [searchRange_cons_of_none c t (tryRangeAt_none_of_head c t (h c (by simp))),
      ih (fun x hx => h x (by simp [hx]))]
    rfl

/-- The range pattern finds no match after a successful number parse whose
remainder does not continue with `-` (after optional whitespace). -/
theorem tryRangeAt_none_after (l n rest : List Char)
    (hpn : parseNum l = some (n, rest))
    (h : ∀ c r, rest.dropWhile isSpaceC = c :: r → c ≠ '-') :
    tryRangeAt l = none := by
  unfold tryRangeAt
  rw [hpn]
  simp only [Option.bind_eq_bind, Option.some_bind]
  cases hdw : rest.dropWhile isSpaceC with
  | nil => rfl
  | cons c r => simp [h c r hdw]

/-- Dropping whitespace over a space run followed by a unit yields the
unit. -/
theorem dropSpaces_sp_unit (sp : List Char) (u : String)
    (hsp : ∀ c ∈ sp, c = ' ') (hu : u ∈ units) :
    (sp ++ u.toList).dropWhile isSpaceC = u.toList := by
  obtain ⟨hne, hchars, _⟩ := units_facts u hu
  apply dropWhile_all_append
  · intro c hc
    rw [hsp c hc]
    rfl
  · cases hul : u.toList with
    | nil => exact absurd hul hne
    | cons c r =>
      exact dropWhile_eq_self_of_head _ c r (hchars c (by rw [hul]; simp)).2.1

/-- Head facts for a space run followed by a unit: no digit, no dot, no
hyphen can start it. -/
theorem head_facts_sp_unit (sp : List Char) (u : String)
    (hsp : ∀ c ∈ sp, c = ' ') (hu : u ∈ units) :
    ∀ c, (sp ++ u.toList).head? = some c →
      isDigitC c = false ∧ c ≠ '.' ∧ c ≠ '-' := by
  intro c hc
  cases sp with
  | cons s sp' =>
    simp only [List.cons_append, List.head?_cons, Option.some.injEq] at hc
    rw [← hc, hsp s (by simp)]
    refine ⟨rfl, by decide, by decide⟩
  | nil =>
    simp only [List.nil_append] at hc
    obtain ⟨hne, hchars, _⟩ := units_facts u hu
    cases hul : u.toList with
    | nil => rw [hul] at hc; exact Option.noConfusion hc
    | cons x r =>
      rw [hul] at hc
      simp only [List.head?_cons, Option.some.injEq] at hc
      obtain ⟨h1, _, _, _, h5, h6⟩ := hchars x (by rw [hul]; simp)
      rw [← hc]
      exact ⟨h1, h6, h5⟩

/-- The head of the unit (after dropping the whitespace run) is not a
hyphen. -/
theorem no_dash_after_spaces (sp : List Char) (u : String)
    (hsp : ∀ c ∈ sp, c = ' ') (hu : u ∈ units) :
    ∀ c r, (sp ++ u.toList).dropWhile isSpaceC = c :: r → c ≠ '-' := by
  intro c r hdw
  rw [dropSpaces_sp_unit sp u hsp hu] at hdw
  obtain ⟨_, hchars, _⟩ := units_facts u hu
  exact (hchars c (by rw [hdw]; simp)).2.2.2.2.1

/-- The range pattern finds no match in a digit run followed by optional
whitespace and a unit. -/
theorem searchRange_none_run (sp : List Char) (u : String)
    (hsp : ∀ c ∈ sp, c = ' ') (hu : u ∈ units) :
    ∀ run : List Char, (∀ c ∈ run, isDigitC c = true) →
      searchRange (run ++ (sp ++ u.toList)) = none := by
  intro run
  induction run with
  | nil =>
    intro _
    rw [List.nil_append]
    apply searchRange_none_of_all_nondigit
    intro c hc
    rcases List.mem_append.mp hc with h | h
    · rw [hsp c h]; rfl
    · exact ((units_facts u hu).2.1 c h).1
  | cons d run' ih =>
    intro hrun
    have hpn : parseNum ((d :: run') ++ (sp ++ u.toList))
        = some (d :: run', sp ++ u.toList) :=
      parseNum_digits _ _ (by simp) hrun
        (fun c hc =>
          ⟨(head_facts_sp_unit sp u hsp hu c hc).1,
           (head_facts_sp_unit sp u hsp hu c hc).2.1⟩)
    have htr : tryRangeAt ((d :: run') ++ (sp ++ u.toList)) = none :=
      tryRangeAt_none_after _ _ _ hpn (no_dash_after_spaces sp u hsp hu)
    rw [List.cons_append] at htr
    rw [List.cons_append, searchRange_cons_of_none _ _ htr,
      ih (fun x hx => hrun x (by simp [hx]))]
    rfl

/-- The range pattern finds no match in a digit run with a fractional part
followed by optional whitespace and a unit. -/
theorem searchRange_none_run_frac (fs' sp : List Char) (u : String)
    (hfne : fs' ≠ []) (hfs : ∀ c ∈ fs', isDigitC c = true)
    (hsp : ∀ c ∈ sp, c = ' ') (hu : u ∈ units) :
    ∀ run : List Char, (∀ c ∈ run, isDigitC c = true) →
      searchRange (run ++ ('.' :: (fs' ++ (sp ++ u.toList)))) = none := by
  intro run
  induction run with
  | nil =>
    intro _
    rw [List.nil_append,
      searchRange_cons_of_none _ _ (tryRangeAt_none_of_head '.' _ (by decide)),
      searchRange_none_run sp u hsp hu fs' hfs]
    rfl
  | cons d run' ih =>
    intro hrun
    have hpn : parseNum ((d :: run') ++ '.' :: fs' ++ (sp ++ u.toList))
        = some ((d :: run') ++ '.' :: fs', sp ++ u.toList) :=
      parseNum_digits_frac _ _ _ (by simp) hrun hfne hfs
        (fun c hc => (head_facts_sp_unit sp u hsp hu c hc).1)
    have htr : tryRangeAt ((d :: run') ++ '.' :: fs' ++ (sp ++ u.toList)) = none :=
      tryRangeAt_none_after _ _ _ hpn (no_dash_after_spaces sp u hsp hu)
    have hsh : (d :: run') ++ '.' :: fs' ++ (sp ++ u.toList)
        = d :: (run' ++ ('.' :: (fs' ++ (sp ++ u.toList)))) := by
      simp
    rw [hsh] at htr
    rw [List.cons_append, searchRange_cons_of_none _ _ htr,
      ih (fun x hx => hrun x (by simp [hx]))]
    rfl

/-- The range pattern finds no match when a digit-free prefix precedes a
matchless remainder. -/
theorem searchRange_append_none (pre l : List Char)
    (hpre : ∀ c ∈ pre, isDigitC c = false) (hl : searchRange l = none) :
    searchRange (pre ++ l) = none := by
  induction pre with
  | nil => simpa using hl
  | cons c p ih =>
    rw [List.cons_append,
      searchRange_cons_of_none _ _ (tryRangeAt_none_of_head _ _ (hpre c (by simp))),
      ih (fun x hx => hpre x (by simp [hx]))]
    rfl

/-- Unfolding lemma for `searchNumUnit` on a cons cell. -/
theorem searchNumUnit_cons_eq (c : Char) (rest : List Char) :
    searchNumUnit (c :: rest)
      = match tryNumUnitAt (c :: rest) with
        | some (num, u, _) => some ([], num, u)
        | none =>
          if c = '\n' then none
          else (searchNumUnit rest).map (fun r => (c :: r.1, r.2.1, r.2.2)) := rfl

/-- The anchored number-unit search through a prefix of non-digit,
non-newline characters. -/
theorem searchNumUnit_append_map (pre l : List Char)
    (hpre : ∀ c ∈ pre, isDigitC c = false ∧ c ≠ '\n') :
    searchNumUnit (pre ++ l)
      = (searchNumUnit l).map (fun r => (pre ++ r.1, r.2.1, r.2.2)) := by
  induction pre with
  | nil =>
    cases h : searchNumUnit l <;> simp [h]
  | cons c p ih =>
    rw [List.cons_append,
      searchNumUnit_cons_eq c (p ++ l),
      tryNumUnitAt_none_of_head _ _ (hpre c (by simp)).1]
    rw [if_neg (hpre c (by simp)).2,
      ih (fun x hx => hpre x (by simp [hx]))]
    cases h : searchNumUnit l with
    | none => rfl
    | some r => simp

/-- A successful head match makes `searchNumUnit` return the empty prefix. -/
theorem searchNumUnit_cons_of_some (c : Char) (rest num : List Char)
    (u : String) (r : List Char)
    (h1 : tryNumUnitAt (c :: rest) = some (num, u, r)) :
    searchNumUnit (c :: rest) = some ([], num, u) := by
  rw [searchNumUnit_cons_eq c rest, h1]

/-- The number-unit attempt succeeds on the payload
`digits (++ fraction) ++ spaces ++ unit`. -/
theorem tryNumUnitAt_payload (ds fs sp : List Char) (u : String)
    (hne : ds ≠ []) (hds : ∀ c ∈ ds, isDigitC c = true)
    (hfs : fs = [] ∨ ∃ fs', fs = '.' :: fs' ∧ fs' ≠ [] ∧ ∀ c ∈ fs', isDigitC c = true)
    (hsp : ∀ c ∈ sp, c = ' ') (hu : u ∈ units) :
    tryNumUnitAt (ds ++ (fs ++ (sp ++ u.toList))) = some (ds ++ fs, u, []) := by
  have hma : matchAlt units u.toList = some (u, []) := (units_facts u hu).2.2
  rcases hfs with rfl | ⟨fs', rfl, hfne, hfsd⟩
  · have hpn : parseNum (ds ++ (sp ++ u.toList)) = some (ds, sp ++ u.toList) :=
      parseNum_digits _ _ hne hds
        (fun c hc =>
          ⟨(head_facts_sp_unit sp u hsp hu c hc).1,
           (head_facts_sp_unit sp u hsp hu c hc).2.1⟩)
    unfold tryNumUnitAt
    rw [List.nil_append, hpn]
    simp only [Option.bind_eq_bind, Option.some_bind]
    rw [dropSpaces_sp_unit sp u hsp hu, hma]
    simp
  · have hpn : parseNum (ds ++ '.' :: fs' ++ (sp ++ u.toList))
        = some (ds ++ '.' :: fs', sp ++ u.toList) :=
      parseNum_digits_frac _ _ _ hne hds hfne hfsd
        (fun c hc => (head_facts_sp_unit sp u hsp hu c hc).1)
    have hsh : ds ++ ('.' :: fs' ++ (sp ++ u.toList))
        = ds ++ '.' :: fs' ++ (sp ++ u.toList) := by
      simp
    unfold tryNumUnitAt
    rw [hsh, hpn]
    simp only [Option.bind_eq_bind, Option.some_bind]
    rw [dropSpaces_sp_unit sp u hsp hu, hma]
    rfl

/-- The number-unit search on the full preprocessed text: skips the name,
matches the number and the unit. -/
theorem searchNumUnit_full (pre ds fs sp : List Char) (u : String)
    (hpre : ∀ c ∈ pre, isDigitC c = false ∧ c ≠ '\n')
    (hne : ds ≠ []) (hds : ∀ c ∈ ds, isDigitC c = true)
    (hfs : fs = [] ∨ ∃ fs', fs = '.' :: fs' ∧ fs' ≠ [] ∧ ∀ c ∈ fs', isDigitC c = true)
    (hsp : ∀ c ∈ sp, c = ' ') (hu : u ∈ units) :
    searchNumUnit (pre ++ (ds ++ (fs ++ (sp ++ u.toList))))
      = some (pre, ds ++ fs, u) := by
  rw [searchNumUnit_append_map pre _ hpre]
  cases ds with
  | nil => exact absurd rfl hne
  | cons d ds' =>
    have hp := tryNumUnitAt_payload (d :: ds') fs sp u hne hds hfs hsp hu
    rw [List.cons_append] at hp
    rw [List.cons_append, searchNumUnit_cons_of_some _ _ _ _ _ hp]
    simp

/-- `rangeSubGo` on the empty list. -/
theorem rangeSubGo_nil : ∀ n, rangeSubGo n [] = []
  | 0 => rfl
  | _ + 1 => rfl

/-- When the single range match extends to the end of the text, `re.sub`
removes it, leaving the prefix. -/
theorem rangeSubAll_removes_match (l p n1 n2 : List Char) (u : String)
    (h : searchRange l = some (p, n1, n2, u, [])) : rangeSubAll l = p := by
  cases l with
  | nil => exact Option.noConfusion h
  | cons c rest =>
    unfold rangeSubAll
    show rangeSubGo (rest.length + 1) (c :: rest) = p
    unfold rangeSubGo
    rw [h]
    show p ++ rangeSubGo rest.length [] = p
    rw [rangeSubGo_nil, List.append_nil]

/-- `pyStrip` over `name ++ X` when `X` starts and ends with non-whitespace:
only the name's leading whitespace is removed. -/
theorem pyStrip_append_shape (a X : List Char) (d : Char) (X' : List Char)
    (hX : X = d :: X') (hd : isSpaceC d = false)
    (hlast : ∃ c Y, X.reverse = c :: Y ∧ isSpaceC c = false) :
    pyStrip (a ++ X) = a.dropWhile isSpaceC ++ X := by
  unfold pyStrip
  rw [hX, dropWhile_append_cons _ _ _ _ hd, ← hX]
  obtain ⟨c, Y, hrev, hc⟩ := hlast
  rw [List.reverse_append, hrev, List.cons_append,
    dropWhile_eq_self_of_head _ _ _ hc, ← List.cons_append, ← hrev,
    ← List.reverse_append, List.reverse_reverse]

/-- The full preprocessing of `parse_ingredient_text` (strip, then colon
removal) on `name ++ X` for a colon-free `X` starting and ending with
non-whitespace. -/
theorem preprocess_append_shape (a X : List Char) (d : Char) (X' : List Char)
    (ha : ∀ c ∈ a, c ≠ '：' ∧ c ≠ ':')
    (hXcol : ∀ c ∈ X, c ≠ '：' ∧ c ≠ ':')
    (hX : X = d :: X') (hd : isSpaceC d = false)
    (hlast : ∃ c Y, X.reverse = c :: Y ∧ isSpaceC c = false) :
    removeColons (pyStrip (a ++ X)) = a.dropWhile isSpaceC ++ X := by
  rw [pyStrip_append_shape a X d X' hX hd hlast]
  unfold removeColons
  rw [List.filter_append]
  have h1 : (a.dropWhile isSpaceC).filter (fun c => !(c = '：' || c = ':'))
      = a.dropWhile isSpaceC :=
    removeColons_eq_self _
      (fun c hc => ha c ((List.dropWhile_sublist isSpaceC (l := a)).subset hc))
  have h2 : X.filter (fun c => !(c = '：' || c = ':')) = X :=
    removeColons_eq_self _ hXcol
  rw [h1, h2]

/-- `pyStrip` after left-stripping is `pyStrip` of the original. -/
theorem pyStrip_dropWhile (l : List Char) :
    pyStrip (l.dropWhile isSpaceC) = pyStrip l := by
  unfold pyStrip
  rw [dropWhile_idem]

/-- The unanchored range search through a digit-free prefix. -/
theorem searchRange_append_map (pre l : List Char)
    (hpre : ∀ c ∈ pre, isDigitC c = false) :
    searchRange (pre ++ l)
      = (searchRange l).map
          (fun r => (pre ++ r.1, r.2.1, r.2.2.1, r.2.2.2.1, r.2.2.2.2)) := by
  induction pre with
  | nil => cases h : searchRange l <;> simp [h]
  | cons c p ih =>
    rw [List.cons_append,
      searchRange_cons_of_none _ _ (tryRangeAt_none_of_head _ _ (hpre c (by simp))),
      ih (fun x hx => hpre x (by simp [hx]))]
    cases h : searchRange l with
    | none => rfl
    | some r => simp

/-- The range attempt succeeds on the payload
`digits ++ '-' ++ digits ++ unit`, with the match consuming the whole
payload. -/
theorem tryRangeAt_range_payload (ds1 ds2 : List Char) (u : String)
    (h1ne : ds1 ≠ []) (h1d : ∀ c ∈ ds1, isDigitC c = true)
    (h2ne : ds2 ≠ []) (h2d : ∀ c ∈ ds2, isDigitC c = true)
    (hu : u ∈ units) :
    tryRangeAt (ds1 ++ ('-' :: (ds2 ++ u.toList)))
      = some (ds1, ds2, u, []) := by
  obtain ⟨hune, huchars, hma⟩ := units_facts u hu
  have hpn1 : parseNum (ds1 ++ ('-' :: (ds2 ++ u.toList)))
      = some (ds1, '-' :: (ds2 ++ u.toList)) :=
    parseNum_digits _ _ h1ne h1d
      (fun c hc => by
        simp only [List.head?_cons, Option.some.injEq] at hc
        rw [← hc]
        exact ⟨by decide, by decide⟩)
  have huhead : ∀ c, u.toList.head? = some c →
      isDigitC c = false ∧ c ≠ '.' := by
    intro c hc
    cases hul : u.toList with
    | nil => rw [hul] at hc; exact Option.noConfusion hc
    | cons x r =>
      rw [hul] at hc
      simp only [List.head?_cons, Option.some.injEq] at hc
      obtain ⟨q1, _, _, _, _, q6⟩ := huchars x (by rw [hul]; simp)
      rw [← hc]
      exact ⟨q1, q6⟩
  have hpn2 : parseNum (ds2 ++ u.toList) = some (ds2, u.toList) :=
    parseNum_digits _ _ h2ne h2d huhead
  have hds2drop : (ds2 ++ u.toList).dropWhile isSpaceC = ds2 ++ u.toList := by
    cases ds2 with
    | nil => exact absurd rfl h2ne
    | cons e es =>
      rw [List.cons_append]
      exact dropWhile_eq_self_of_head _ _ _
        (isSpaceC_eq_false_of_digit e (h2d e (by simp)))
  have hudrop : u.toList.dropWhile isSpaceC = u.toList := by
    cases hul : u.toList with
    | nil => rfl
    | cons x r =>
      exact dropWhile_eq_self_of_head _ _ _
        ((huchars x (by rw [hul]; simp)).2.1)
  unfold tryRangeAt
  rw [hpn1]
  simp only [Option.bind_eq_bind, Option.some_bind]
  rw [dropWhile_eq_self_of_head _ _ _ (show isSpaceC '-' = false from rfl)]
  simp only [if_pos rfl]
  rw [hds2drop, hpn2]
  simp only [Option.some_bind]
  rw [hudrop, hma]
  rfl

/-- The reverse of `a ++ b` starts with the head of `b.reverse`. -/
theorem last_shape (a b : List Char) (c : Char) (Y0 : List Char)
    (hrev : b.reverse = c :: Y0) :
    ∃ Y, (a ++ b).reverse = c :: Y := by
  rw [List.reverse_append, hrev]
  exact ⟨Y0 ++ a.reverse, rfl⟩

/-- Claim C7, counterexample: the line `盐：2克` is of the claimed form
`<name><number><unit>` with name `盐：`, number `2` and unit `克`, but the
parser strips the fullwidth colon during preprocessing (line 20) and returns
the name `盐`, not the name `盐：` that the claim requires. -/
theorem C7_counterexample :
    parse_ingredient_text "盐：2克" = ("盐", some 2, some "克") ∧
    ("盐" : String) ≠ "盐：" :=
  ⟨by with_unfolding_all rfl, by decide⟩

/-- Claim C7 (amended): for every ingredient line `name ++ number ++
spaces? ++ unit` whose name part contains no digits, no colons (`：`/`:`) and
no newline, and whose unit is in the recognized closed unit set, the parser
returns exactly (name stripped of surrounding whitespace, the number's value,
the unit); numbers support decimals.  And for every range line
`name ++ number ++ '-' ++ number ++ unit` under the same name restrictions,
it returns the arithmetic mean of the two bounds as the quantity, the
matched unit, and the text with the range removed (then stripped) as the
name.  (The colon restriction is forced by the preprocessing of line 20,
which deletes every colon before matching — see the counterexample.) -/
theorem C7_name_number_unit (name ds fs sp name2 ds1 ds2 : List Char)
    (u u2 : String)
    (hname : ∀ c ∈ name, isDigitC c = false ∧ c ≠ '：' ∧ c ≠ ':' ∧ c ≠ '\n')
    (hdsne : ds ≠ []) (hds : ∀ c ∈ ds, isDigitC c = true)
    (hfs : fs = [] ∨ ∃ fs', fs = '.' :: fs' ∧ fs' ≠ [] ∧ ∀ c ∈ fs', isDigitC c = true)
    (hsp : ∀ c ∈ sp, c = ' ')
    (hu : u ∈ units)
    (hname2 : ∀ c ∈ name2, isDigitC c = false ∧ c ≠ '：' ∧ c ≠ ':' ∧ c ≠ '\n')
    (h1ne : ds1 ≠ []) (h1d : ∀ c ∈ ds1, isDigitC c = true)
    (h2ne : ds2 ≠ []) (h2d : ∀ c ∈ ds2, isDigitC c = true)
    (hu2 : u2 ∈ units) :
    parse_ingredient_text (String.mk (name ++ (ds ++ (fs ++ (sp ++ u.toList)))))
      = (String.mk (pyStrip name), some (ratOfNum (ds ++ fs)), some u) ∧
    parse_ingredient_text (String.mk (name2 ++ (ds1 ++ ('-' :: (ds2 ++ u2.toList)))))
      = (String.mk (pyStrip name2),
         some ((ratOfNum ds1 + ratOfNum ds2) / 2), some u2) := by
  constructor
  · -- the plain number-unit form
    obtain ⟨hune, huchars, _⟩ := units_facts u hu
    obtain ⟨d0, ds', rfl⟩ := List.exists_cons_of_ne_nil hdsne
    set X : List Char := (d0 :: ds') ++ (fs ++ (sp ++ u.toList)) with hXdef
    have hXcons : X = d0 :: (ds' ++ (fs ++ (sp ++ u.toList))) := by
      rw [hXdef, List.cons_append]
    have hd0 : isDigitC d0 = true := hds d0 (by simp)
    have hXcol : ∀ c ∈ X, c ≠ '：' ∧ c ≠ ':' := by
      intro c hc
      rw [hXdef] at hc
      rcases List.mem_append.mp hc with h | h
      · have := char_ne_of_digit c (hds c h)
        exact ⟨this.1, this.2.1⟩
      · rcases List.mem_append.mp h with h | h
        · rcases hfs with rfl | ⟨fs', rfl, _, hfsd⟩
          · cases h
          · rcases List.mem_cons.mp h with rfl | h
            · exact ⟨by decide, by decide⟩
            · have := char_ne_of_digit c (hfsd c h)
              exact ⟨this.1, this.2.1⟩
        · rcases List.mem_append.mp h with h | h
          · rw [hsp c h]
            exact ⟨by decide, by decide⟩
          · have := (huchars c h).2.2
            exact ⟨this.1, this.2.1⟩
    have hlast : ∃ c Y, X.reverse = c :: Y ∧ isSpaceC c = false := by
      cases hurev : u.toList.reverse with
      | nil =>
        exact absurd (by rw [← List.reverse_reverse u.toList, hurev]; rfl) hune
      | cons c Y0 =>
        have hcmem : c ∈ u.toList := by
          rw [← List.reverse_reverse u.toList, hurev]
          simp
        have hXalt : X = ((d0 :: ds') ++ (fs ++ sp)) ++ u.toList := by
          rw [hXdef]
          simp [List.append_assoc]
        obtain ⟨Y, hY⟩ := last_shape ((d0 :: ds') ++ (fs ++ sp)) u.toList c Y0 hurev
        rw [hXalt]
        exact ⟨c, Y, hY, (huchars c hcmem).2.1⟩
    have hpre : removeColons (pyStrip ((name ++ X))) = name.dropWhile isSpaceC ++ X :=
      preprocess_append_shape name X d0 _
        (fun c hc => ⟨(hname c hc).2.1, (hname c hc).2.2.1⟩) hXcol hXcons
        (isSpaceC_eq_false_of_digit d0 hd0) hlast
    have hnamedrop : ∀ c ∈ name.dropWhile isSpaceC,
        isDigitC c = false ∧ c ≠ '\n' := by
      intro c hc
      have := hname c ((List.dropWhile_sublist isSpaceC (l := name)).subset hc)
      exact ⟨this.1, this.2.2.2⟩
    have hsr : searchRange (name.dropWhile isSpaceC ++ X) = none := by
      apply searchRange_append_none _ _ (fun c hc => (hnamedrop c hc).1)
      rw [hXdef]
      rcases hfs with rfl | ⟨fs', rfl, hfne, hfsd⟩
      · rw [List.nil_append]
        exact searchRange_none_run sp u hsp hu (d0 :: ds') hds
      · have := searchRange_none_run_frac fs' sp u hfne hfsd hsp hu (d0 :: ds') hds
        simpa using this
    have hsnu : searchNumUnit (name.dropWhile isSpaceC ++ X)
        = some (name.dropWhile isSpaceC, (d0 :: ds') ++ fs, u) := by
      rw [hXdef]
      exact searchNumUnit_full _ _ _ _ _ hnamedrop hdsne hds hfs hsp hu
    unfold parse_ingredient_text
    rw [show (String.mk (name ++ X)).toList = name ++ X from rfl, hpre]
    dsimp only
    rw [hsr, hsnu]
    simp only [pyStrip_dropWhile]
  · -- the range form
    obtain ⟨hu2ne, hu2chars, _⟩ := units_facts u2 hu2
    obtain ⟨d1, ds1', rfl⟩ := List.exists_cons_of_ne_nil h1ne
    set X : List Char := (d1 :: ds1') ++ ('-' :: (ds2 ++ u2.toList)) with hXdef
    have hXcons : X = d1 :: (ds1' ++ ('-' :: (ds2 ++ u2.toList))) := by
      rw [hXdef, List.cons_append]
    have hd1 : isDigitC d1 = true := h1d d1 (by simp)
    have hXcol : ∀ c ∈ X, c ≠ '：' ∧ c ≠ ':' := by
      intro c hc
      rw [hXdef] at hc
      rcases List.mem_append.mp hc with h | h
      · have := char_ne_of_digit c (h1d c h)
        exact ⟨this.1, this.2.1⟩
      · rcases List.mem_cons.mp h with rfl | h
        · exact ⟨by decide, by decide⟩
        · rcases List.mem_append.mp h with h | h
          · have := char_ne_of_digit c (h2d c h)
            exact ⟨this.1, this.2.1⟩
          · have := (hu2chars c h).2.2
            exact ⟨this.1, this.2.1⟩
    have hlast : ∃ c Y, X.reverse = c :: Y ∧ isSpaceC c = false := by
      cases hurev : u2.toList.reverse with
      | nil =>
        exact absurd (by rw [← List.reverse_reverse u2.toList, hurev]; rfl) hu2ne
      | cons c Y0 =>
        have hcmem : c ∈ u2.toList := by
          rw [← List.reverse_reverse u2.toList, hurev]
          simp
        have hXalt : X = ((d1 :: ds1') ++ ('-' :: ds2)) ++ u2.toList := by
          rw [hXdef]
          simp [List.append_assoc]
        obtain ⟨Y, hY⟩ := last_shape ((d1 :: ds1') ++ ('-' :: ds2)) u2.toList c Y0 hurev
        rw [hXalt]
        exact ⟨c, Y, hY, (hu2chars c hcmem).2.1⟩
    have hpre : removeColons (pyStrip ((name2 ++ X))) = name2.dropWhile isSpaceC ++ X :=
      preprocess_append_shape name2 X d1 _
        (fun c hc => ⟨(hname2 c hc).2.1, (hname2 c hc).2.2.1⟩) hXcol hXcons
        (isSpaceC_eq_false_of_digit d1 hd1) hlast
    have htr : tryRangeAt X = some (d1 :: ds1', ds2, u2, []) := by
      rw [hXdef]
      exact tryRangeAt_range_payload _ _ _ h1ne h1d h2ne h2d hu2
    have hsr : searchRange (name2.dropWhile isSpaceC ++ X)
        = some (name2.dropWhile isSpaceC, d1 :: ds1', ds2, u2, []) := by
      rw [searchRange_append_map _ _ (fun c hc =>
        (hname2 c ((List.dropWhile_sublist isSpaceC (l := name2)).subset hc)).1)]
      rw [hXcons] at htr
      rw [hXcons, searchRange_cons_of_some _ _ _ _ _ _ htr]
      simp
    have hsub : rangeSubAll (name2.dropWhile isSpaceC ++ X)
        = name2.dropWhile isSpaceC :=
      rangeSubAll_removes_match _ _ _ _ _ hsr
    unfold parse_ingredient_text
    rw [show (String.mk (name2 ++ X)).toList = name2 ++ X from rfl, hpre]
    dsimp only
    rw [hsr, hsub]
    simp only [pyStrip_dropWhile]

/-- Witness for C7's amended theorem at the two examples of the claim:
`鸡蛋 2个` (the space belonging to the name part, which is stripped) and
`面粉70-230g`. -/
theorem C7_name_number_unit_witness :
    parse_ingredient_text (String.mk ("鸡蛋 ".toList ++ (['2'] ++ ([] ++ ([] ++ "个".toList)))))
      = (String.mk (pyStrip "鸡蛋 ".toList), some (ratOfNum (['2'] ++ [])), some "个") ∧
    parse_ingredient_text (String.mk ("面粉".toList ++ (['7', '0'] ++ ('-' :: (['2', '3', '0'] ++ "g".toList)))))
      = (String.mk (pyStrip "面粉".toList),
         some ((ratOfNum ['7', '0'] + ratOfNum ['2', '3', '0']) / 2), some "g") :=
  C7_name_number_unit "鸡蛋 ".toList ['2'] [] [] "面粉".toList ['7', '0']
    ['2', '3', '0'] "个" "g" (by decide) (by decide) (by decide) (Or.inl rfl)
    (by decide) (by decide) (by decide) (by decide) (by decide) (by decide)
    (by decide) (by decide)

end HowToCook
